import Mathlib

set_option linter.unusedVariables false
set_option linter.unnecessarySimpa false

/-!
Verification of the asr-poc repository against its specification.

Shallow embedding of the relevant parts of the source:
* `server/mti-gw.js` (framed-TCP gateway, "FGW"): RTP payload extraction,
  binary framing, per-session reassembly/queueing state machine.
* `server/tap-service.js` (tap orchestrator, "TAP"): idempotent cleanup,
  single-flight bridge creation, gw-parameter normalization.
* `server/deepgram-gw.js` (streaming gateway, "SGW"): pending-binding FIFO
  with TTL, SSRC session binding, session cap, reconnect backoff,
  generative-assistant cycle.
* `server/ari/ari-client.js` (control-plane adapter, "CTL"): event-stream
  URL derivation.

Bytes are modelled as `Nat` values (each < 256 on real inputs); buffers as
`List Nat`; machine integer reads carry explicit arithmetic.  All
definitions are executable so that concrete witnesses evaluate by `decide`
or `rfl`.
-/

namespace AsrPoc

/-! ## FGW: `server/mti-gw.js` (second, Prometheus variant, lines 230-600)

`rtpPayload` (lines 331-343): strip the 12-byte fixed RTP header, skip
`CC * 4` CSRC bytes, and, when the X bit is set, skip the 4-byte extension
header plus `extLen * 4` bytes.  `buf[0] & 0x0f` is `% 16`;
`(buf[0] & 0x10) !== 0` is bit 4, i.e. `/ 16 % 2 = 1` (RTP first bytes
are < 256); `readUInt16BE` is big-endian. -/

def readUInt16BE (buf : List Nat) (o : Nat) : Nat :=
  256 * buf.getD o 0 + buf.getD (o + 1) 0

def rtpPayload (buf : List Nat) : Option (List Nat) :=
  if buf.length < 12 then none
  else
    let cc := buf.getD 0 0 % 16
    let x := buf.getD 0 0 / 16 % 2 = 1
    let offset := 12 + cc * 4
    if x then
      if buf.length < offset + 4 then none
      else
        let extLen := readUInt16BE buf (offset + 2)
        let offset2 := offset + 4 + extLen * 4
        if buf.length ≤ offset2 then none else some (buf.drop offset2)
    else
      if buf.length ≤ offset then none else some (buf.drop offset)

/-- `buildFrame` (mti-gw.js lines 345-352): `[TYPE:1][LENGTH:2 BE][PAYLOAD]`.
`writeUInt16BE` stores the length big-endian (the JS call throws for
lengths ≥ 2^16, so theorems about START frames carry that bound). -/
def buildFrame (ty : Nat) (payload : List Nat) : List Nat :=
  ty :: payload.length / 256 % 256 :: payload.length % 256 :: payload

def AUDIO_FRAME_SIZE : Nat := 640

/-- Greedy 640-byte chunker (fuelled for executability): the full chunks in
order, and the remainder (< 640 bytes).  This is the net effect of the
`while (sess.audioBuffer.length >= AUDIO_FRAME_SIZE)` drain loop of
mti-gw.js lines 462-471 on the byte buffer. -/
def drainGo : Nat → List Nat → List (List Nat) × List Nat
  | 0, l => ([], l)
  | f + 1, l =>
    if 640 ≤ l.length then
      let r := drainGo f (l.drop 640)
      (l.take 640 :: r.1, r.2)
    else ([], l)

def drain (l : List Nat) : List (List Nat) × List Nat :=
  drainGo l.length l

theorem drainGo_congr (f₁ : Nat) : ∀ (f₂ : Nat) (l : List Nat),
    l.length ≤ f₁ → l.length ≤ f₂ → drainGo f₁ l = drainGo f₂ l := by
  induction f₁ with
  | zero =>
    intro f₂ l h₁ h₂
    have : l.length = 0 := Nat.le_zero.mp h₁
    cases f₂ with
    | zero => rfl
    | succ f => simp [drainGo, this]
  | succ f ih =>
    intro f₂ l h₁ h₂
    cases f₂ with
    | zero =>
      have : l.length = 0 := Nat.le_zero.mp h₂
      simp [drainGo, this]
    | succ f' =>
      simp only [drainGo]
      by_cases hb : 640 ≤ l.length
      · simp only [if_pos hb]
        have hlen : (l.drop 640).length ≤ f := by simp; omega
        have hlen' : (l.drop 640).length ≤ f' := by simp; omega
        rw [ih f' (l.drop 640) hlen hlen']
      · simp [if_neg hb]

theorem drain_small (l : List Nat) (h : l.length < 640) : drain l = ([], l) := by
  unfold drain
  cases hl : l.length with
  | zero => rfl
  | succ n => rw [drainGo, if_neg (by omega)]

theorem drain_big (l : List Nat) (h : 640 ≤ l.length) :
    drain l = (l.take 640 :: (drain (l.drop 640)).1, (drain (l.drop 640)).2) := by
  unfold drain
  obtain ⟨n, hn⟩ : ∃ n, l.length = n + 1 := ⟨l.length - 1, by omega⟩
  rw [hn, drainGo, if_pos (hn ▸ h)]
  have : drainGo n (l.drop 640) = drainGo (l.drop 640).length (l.drop 640) :=
    drainGo_congr n (l.drop 640).length (l.drop 640) (by simp; omega) (le_refl _)
  rw [this]

theorem drain_rem_lt_aux (n : Nat) : ∀ l : List Nat, l.length ≤ n → (drain l).2.length < 640 := by
  induction n with
  | zero =>
    intro l h
    rw [drain_small l (by omega)]; simp; omega
  | succ n ih =>
    intro l h
    by_cases hb : 640 ≤ l.length
    · rw [drain_big l hb]
      exact ih (l.drop 640) (by simp; omega)
    · rw [drain_small l (by omega)]; simp; omega

/-- The remainder left by the chunker is always shorter than one frame. -/
theorem drain_rem_lt (l : List Nat) : (drain l).2.length < 640 :=
  drain_rem_lt_aux l.length l (le_refl _)

theorem drain_chunk_len_aux (n : Nat) :
    ∀ l : List Nat, l.length ≤ n → ∀ c ∈ (drain l).1, c.length = 640 := by
  induction n with
  | zero =>
    intro l h c hc
    rw [drain_small l (by omega)] at hc; simp at hc
  | succ n ih =>
    intro l h c hc
    by_cases hb : 640 ≤ l.length
    · rw [drain_big l hb] at hc
      rcases List.mem_cons.mp hc with h1 | h2
      · subst h1; simp [List.length_take]; omega
      · exact ih (l.drop 640) (by simp; omega) c h2
    · rw [drain_small l (by omega)] at hc; simp at hc

/-- Every full chunk produced by the chunker has exactly 640 bytes. -/
theorem drain_chunk_len (l : List Nat) : ∀ c ∈ (drain l).1, c.length = 640 :=
  drain_chunk_len_aux l.length l (le_refl _)

theorem drain_count_aux (n : Nat) :
    ∀ l : List Nat, l.length ≤ n → (drain l).1.length = l.length / 640 := by
  induction n with
  | zero =>
    intro l h
    rw [drain_small l (by omega)]
    simp [Nat.div_eq_of_lt (by omega : l.length < 640)]
  | succ n ih =>
    intro l h
    by_cases hb : 640 ≤ l.length
    · rw [drain_big l hb]
      have := ih (l.drop 640) (by simp; omega)
      simp only [List.length_cons, this, List.length_drop]
      rw [Nat.div_eq_sub_div (by norm_num) hb]
    · rw [drain_small l (by omega)]
      simp [Nat.div_eq_of_lt (by omega : l.length < 640)]

/-- The chunker produces exactly `⌊N/640⌋` chunks from `N` bytes. -/
theorem drain_count (l : List Nat) : (drain l).1.length = l.length / 640 :=
  drain_count_aux l.length l (le_refl _)

theorem drain_append_aux (n : Nat) :
    ∀ x y : List Nat, x.length ≤ n →
    drain (x ++ y) = ((drain x).1 ++ (drain ((drain x).2 ++ y)).1,
                      (drain ((drain x).2 ++ y)).2) := by
  induction n with
  | zero =>
    intro x y h
    rw [drain_small x (by omega)]
    simp
  | succ n ih =>
    intro x y h
    by_cases hb : 640 ≤ x.length
    · have hxy : 640 ≤ (x ++ y).length := by simp; omega
      rw [drain_big x hb, drain_big (x ++ y) hxy,
        List.take_append_of_le_length hb, List.drop_append_of_le_length hb]
      rw [ih (x.drop 640) y (by simp; omega)]
      simp
    · rw [drain_small x (by omega)]
      simp

/-- Chunking a concatenation: chunk the first part, then chunk its
remainder glued to the second part. -/
theorem drain_append (x y : List Nat) :
    drain (x ++ y) = ((drain x).1 ++ (drain ((drain x).2 ++ y)).1,
                      (drain ((drain x).2 ++ y)).2) :=
  drain_append_aux x.length x y (le_refl _)

/-- Per-port FGW session state (mti-gw.js lines 379-393), restricted to the
fields the framing claims depend on.  `writes` is the sequence of frames
written to the downstream TCP socket, in order. -/
structure FgwSess where
  connected : Bool
  queue : List (List Nat)
  audioBuffer : List Nat
  ended : Bool
  writes : List (List Nat)
deriving Repr, DecidableEq

def initFgwSess : FgwSess :=
  { connected := false, queue := [], audioBuffer := [], ended := false, writes := [] }

/-- The body of the `while` drain loop of the UDP handler (mti-gw.js lines
462-471), fuelled.  Each iteration takes a 640-byte chunk off the buffer,
then (faithfully to the JS, where the buffer was already reassigned)
returns early if `ended`, else writes the AUDIO frame when connected or
queues it while the TCP connect is pending. -/
def fgwDrainGo : Nat → FgwSess → FgwSess
  | 0, s => s
  | f + 1, s =>
    if 640 ≤ s.audioBuffer.length then
      let chunk := s.audioBuffer.take 640
      let s1 := { s with audioBuffer := s.audioBuffer.drop 640 }
      if s1.ended then s1
      else
        let frame := buildFrame 18 chunk
        let s2 :=
          if s1.connected then { s1 with writes := s1.writes ++ [frame] }
          else { s1 with queue := s1.queue ++ [frame] }
        fgwDrainGo f s2
    else s

def fgwDrainLoop (s : FgwSess) : FgwSess :=
  fgwDrainGo s.audioBuffer.length s

/-- The externally visible events a session reacts to: the TCP `connect`
event, an inbound UDP datagram, and a terminal cause (`sendEndAndClose`,
reached from unregister, inactivity, TCP error, UDP error or a process
signal). -/
inductive FgwEv
  | connect
  | udp (msg : List Nat)
  | terminal
deriving Repr, DecidableEq

/-- One step of the session, with `sp` the START payload bytes (the UTF-8
JSON built at mti-gw.js lines 407-413).
* `connect` (lines 400-436): write START, mark connected, flush the queue
  in FIFO order.
* `udp msg` (lines 449-472): drop short or malformed datagrams, append the
  RTP payload to the reassembly buffer, run the drain loop.
* `terminal` = `sendEndAndClose` (lines 493-505): if not yet ended, set
  `ended` and write the END frame — but only `if (sess.connected)`. -/
def fgwStep (sp : List Nat) (s : FgwSess) (e : FgwEv) : FgwSess :=
  match e with
  | .connect =>
    let sA := { s with writes := s.writes ++ [buildFrame 1 sp], connected := true }
    { sA with writes := sA.writes ++ sA.queue, queue := [] }
  | .udp msg =>
    if msg.length < 12 then s
    else
      match rtpPayload msg with
      | none => s
      | some payload => fgwDrainLoop { s with audioBuffer := s.audioBuffer ++ payload }
  | .terminal =>
    if s.ended then s
    else
      let s1 := { s with ended := true }
      if s1.connected then { s1 with writes := s1.writes ++ [buildFrame 0 []] } else s1

def runFgw (sp : List Nat) (evs : List FgwEv) : FgwSess :=
  evs.foldl (fgwStep sp) initFgwSess

/-- Total RTP payload bytes extracted from a datagram list (datagrams that
`rtpPayload` rejects contribute nothing, exactly as in the UDP handler). -/
def payloadConcat (ds : List (List Nat)) : List Nat :=
  (ds.filterMap rtpPayload).flatten

theorem fgwDrainGo_connected (f : Nat) :
    ∀ s : FgwSess, s.ended = false → s.connected = true → s.audioBuffer.length ≤ f →
    fgwDrainGo f s =
      { s with audioBuffer := (drain s.audioBuffer).2,
               writes := s.writes ++ (drain s.audioBuffer).1.map (buildFrame 18) } := by
  induction f with
  | zero =>
    intro s he hc h
    rw [drain_small s.audioBuffer (by omega)]
    simp [fgwDrainGo]
  | succ f ih =>
    intro s he hc h
    by_cases hb : 640 ≤ s.audioBuffer.length
    · rw [fgwDrainGo, if_pos hb]
      simp only [he, hc, if_neg Bool.false_ne_true, if_pos rfl, Bool.false_eq_true,
        if_false, if_true]
      rw [ih _ (by simpa using he) (by simpa using hc) (by simp; omega)]
      rw [drain_big s.audioBuffer hb]
      simp
    · rw [fgwDrainGo, if_neg hb, drain_small s.audioBuffer (by omega)]
      simp

theorem fgwDrainGo_pending (f : Nat) :
    ∀ s : FgwSess, s.ended = false → s.connected = false → s.audioBuffer.length ≤ f →
    fgwDrainGo f s =
      { s with audioBuffer := (drain s.audioBuffer).2,
               queue := s.queue ++ (drain s.audioBuffer).1.map (buildFrame 18) } := by
  induction f with
  | zero =>
    intro s he hc h
    rw [drain_small s.audioBuffer (by omega)]
    simp [fgwDrainGo]
  | succ f ih =>
    intro s he hc h
    by_cases hb : 640 ≤ s.audioBuffer.length
    · rw [fgwDrainGo, if_pos hb]
      simp only [he, hc, Bool.false_eq_true, if_false]
      rw [ih _ (by simpa using he) (by simpa using hc) (by simp; omega)]
      rw [drain_big s.audioBuffer hb]
      simp
    · rw [fgwDrainGo, if_neg hb, drain_small s.audioBuffer (by omega)]
      simp

theorem fgwDrainLoop_connected (s : FgwSess) (he : s.ended = false) (hc : s.connected = true) :
    fgwDrainLoop s =
      { s with audioBuffer := (drain s.audioBuffer).2,
               writes := s.writes ++ (drain s.audioBuffer).1.map (buildFrame 18) } :=
  fgwDrainGo_connected s.audioBuffer.length s he hc (le_refl _)

theorem fgwDrainLoop_pending (s : FgwSess) (he : s.ended = false) (hc : s.connected = false) :
    fgwDrainLoop s =
      { s with audioBuffer := (drain s.audioBuffer).2,
               queue := s.queue ++ (drain s.audioBuffer).1.map (buildFrame 18) } :=
  fgwDrainGo_pending s.audioBuffer.length s he hc (le_refl _)

theorem rtpPayload_short (msg : List Nat) (h : msg.length < 12) : rtpPayload msg = none := by
  rw [rtpPayload, if_pos h]

theorem payloadConcat_cons_none (d : List Nat) (ds : List (List Nat))
    (h : rtpPayload d = none) : payloadConcat (d :: ds) = payloadConcat ds := by
  simp [payloadConcat, h]

theorem payloadConcat_cons_some (d : List Nat) (ds : List (List Nat)) (p : List Nat)
    (h : rtpPayload d = some p) : payloadConcat (d :: ds) = p ++ payloadConcat ds := by
  simp [payloadConcat, h]

theorem foldUdp_connected (sp : List Nat) : ∀ (ds : List (List Nat)) (s : FgwSess),
    s.ended = false → s.connected = true → s.audioBuffer.length < 640 →
    List.foldl (fgwStep sp) s (ds.map FgwEv.udp) =
      { s with audioBuffer := (drain (s.audioBuffer ++ payloadConcat ds)).2,
               writes := s.writes ++
                 (drain (s.audioBuffer ++ payloadConcat ds)).1.map (buildFrame 18) } := by
  intro ds
  induction ds with
  | nil =>
    intro s he hc hb
    simp [payloadConcat, drain_small s.audioBuffer hb]
  | cons d ds ih =>
    intro s he hc hb
    simp only [List.map_cons, List.foldl_cons]
    by_cases h12 : d.length < 12
    · rw [show fgwStep sp s (FgwEv.udp d) = s by simp [fgwStep, if_pos h12]]
      rw [payloadConcat_cons_none d ds (rtpPayload_short d h12)]
      exact ih s he hc hb
    · cases hp : rtpPayload d with
      | none =>
        rw [show fgwStep sp s (FgwEv.udp d) = s by simp [fgwStep, if_neg h12, hp]]
        rw [payloadConcat_cons_none d ds hp]
        exact ih s he hc hb
      | some p =>
        rw [show fgwStep sp s (FgwEv.udp d) =
            fgwDrainLoop { s with audioBuffer := s.audioBuffer ++ p } by
          simp [fgwStep, if_neg h12, hp]]
        rw [fgwDrainLoop_connected _ (by simpa using he) (by simpa using hc)]
        rw [ih _ (by simpa using he) (by simpa using hc) (by simpa using drain_rem_lt _)]
        rw [payloadConcat_cons_some d ds p hp]
        have hassoc : s.audioBuffer ++ (p ++ payloadConcat ds)
            = (s.audioBuffer ++ p) ++ payloadConcat ds := by simp
        rw [hassoc, drain_append (s.audioBuffer ++ p) (payloadConcat ds)]
        simp

theorem foldUdp_pending (sp : List Nat) : ∀ (ds : List (List Nat)) (s : FgwSess),
    s.ended = false → s.connected = false → s.audioBuffer.length < 640 →
    List.foldl (fgwStep sp) s (ds.map FgwEv.udp) =
      { s with audioBuffer := (drain (s.audioBuffer ++ payloadConcat ds)).2,
               queue := s.queue ++
                 (drain (s.audioBuffer ++ payloadConcat ds)).1.map (buildFrame 18) } := by
  intro ds
  induction ds with
  | nil =>
    intro s he hc hb
    simp [payloadConcat, drain_small s.audioBuffer hb]
  | cons d ds ih =>
    intro s he hc hb
    simp only [List.map_cons, List.foldl_cons]
    by_cases h12 : d.length < 12
    · rw [show fgwStep sp s (FgwEv.udp d) = s by simp [fgwStep, if_pos h12]]
      rw [payloadConcat_cons_none d ds (rtpPayload_short d h12)]
      exact ih s he hc hb
    · cases hp : rtpPayload d with
      | none =>
        rw [show fgwStep sp s (FgwEv.udp d) = s by simp [fgwStep, if_neg h12, hp]]
        rw [payloadConcat_cons_none d ds hp]
        exact ih s he hc hb
      | some p =>
        rw [show fgwStep sp s (FgwEv.udp d) =
            fgwDrainLoop { s with audioBuffer := s.audioBuffer ++ p } by
          simp [fgwStep, if_neg h12, hp]]
        rw [fgwDrainLoop_pending _ (by simpa using he) (by simpa using hc)]
        rw [ih _ (by simpa using he) (by simpa using hc) (by simpa using drain_rem_lt _)]
        rw [payloadConcat_cons_some d ds p hp]
        have hassoc : s.audioBuffer ++ (p ++ payloadConcat ds)
            = (s.audioBuffer ++ p) ++ payloadConcat ds := by simp
        rw [hassoc, drain_append (s.audioBuffer ++ p) (payloadConcat ds)]
        simp

theorem payloadConcat_append (ds1 ds2 : List (List Nat)) :
    payloadConcat (ds1 ++ ds2) = payloadConcat ds1 ++ payloadConcat ds2 := by
  simp [payloadConcat]

/-- **C1.** For every FGW session and every sequence of inbound UDP
datagrams whose extracted RTP payloads (12-byte fixed header stripped,
plus `CC × 4` CSRC bytes, plus `(extLen × 4) + 4` extension bytes when the
X bit is set) total `N` bytes, the frame stream written to the downstream
TCP socket is exactly one START frame, followed by `⌊N/640⌋` AUDIO frames
of exactly 640 payload bytes each in PCM-byte order, followed by one END
frame, each frame encoded as `[TYPE:1][LENGTH:2 BE][PAYLOAD]` by
`buildFrame`.  The datagrams may arrive before (`ds1`) or after (`ds2`)
the TCP connect; queued frames are flushed on connect in FIFO order.
`hsp` records `writeUInt16BE`'s range precondition for the START frame. -/
theorem C1_framing_conformance (sp : List Nat) (ds1 ds2 : List (List Nat))
    (hsp : sp.length < 65536) :
    (runFgw sp (ds1.map FgwEv.udp ++ FgwEv.connect :: ds2.map FgwEv.udp
        ++ [FgwEv.terminal])).writes =
      buildFrame 1 sp ::
        ((drain (payloadConcat (ds1 ++ ds2))).1.map (buildFrame 18) ++ [buildFrame 0 []])
    ∧ (drain (payloadConcat (ds1 ++ ds2))).1.length
        = (payloadConcat (ds1 ++ ds2)).length / 640
    ∧ ∀ c ∈ (drain (payloadConcat (ds1 ++ ds2))).1, c.length = 640 := by
  refine ⟨?_, drain_count _, drain_chunk_len _⟩
  unfold runFgw
  rw [show ds1.map FgwEv.udp ++ FgwEv.connect :: ds2.map FgwEv.udp ++ [FgwEv.terminal]
      = ((ds1.map FgwEv.udp ++ [FgwEv.connect]) ++ ds2.map FgwEv.udp) ++ [FgwEv.terminal]
      by simp]
  rw [List.foldl_append, List.foldl_append, List.foldl_append]
  rw [foldUdp_pending sp ds1 initFgwSess rfl rfl (by simp [initFgwSess])]
  set P1 := payloadConcat ds1 with hP1
  have hconn : List.foldl (fgwStep sp)
      { initFgwSess with
          audioBuffer := (drain (initFgwSess.audioBuffer ++ P1)).2,
          queue := initFgwSess.queue
            ++ (drain (initFgwSess.audioBuffer ++ P1)).1.map (buildFrame 18) }
      [FgwEv.connect] =
      { connected := true, queue := [],
        audioBuffer := (drain P1).2, ended := false,
        writes := buildFrame 1 sp :: (drain P1).1.map (buildFrame 18) } := by
    simp [fgwStep, initFgwSess]
  rw [hconn]
  rw [foldUdp_connected sp ds2 _ rfl rfl (by simpa using drain_rem_lt P1)]
  have hterm : ∀ s : FgwSess, s.ended = false → s.connected = true →
      List.foldl (fgwStep sp) s [FgwEv.terminal]
        = { s with ended := true, writes := s.writes ++ [buildFrame 0 []] } := by
    intro s he hc
    simp [fgwStep, he, hc]
  rw [hterm _ rfl rfl]
  simp only []
  rw [payloadConcat_append, drain_append P1 (payloadConcat ds2)]
  simp

/-- Witness for `C1_framing_conformance` at a concrete input: START payload
`[65]`, one 16-byte datagram before connect (version/no-CSRC first byte
128, 4 payload bytes) and one malformed datagram after connect.  `N = 4`,
so zero AUDIO frames are emitted between START and END. -/
theorem C1_framing_conformance_witness :
    (runFgw [65] ([[128, 0, 0, 1, 0, 0, 0, 0, 0, 0, 0, 9, 7, 7, 7, 7]].map FgwEv.udp
        ++ FgwEv.connect :: [[1, 2, 3]].map FgwEv.udp ++ [FgwEv.terminal])).writes =
      buildFrame 1 [65] ::
        ((drain (payloadConcat ([[128, 0, 0, 1, 0, 0, 0, 0, 0, 0, 0, 9, 7, 7, 7, 7]]
            ++ [[1, 2, 3]]))).1.map (buildFrame 18) ++ [buildFrame 0 []]) := by
  have h := C1_framing_conformance [65] [[128, 0, 0, 1, 0, 0, 0, 0, 0, 0, 0, 9, 7, 7, 7, 7]]
    [[1, 2, 3]] (by norm_num)
  exact h.1

/-! ### C2: END-frame discipline -/

/-- Number of END frames (TYPE byte `0x00`) among the frames written to the
TCP socket. -/
def endCount (ws : List (List Nat)) : Nat :=
  (ws.filter (fun f => f.head? == some 0)).length

theorem endCount_append (a b : List (List Nat)) :
    endCount (a ++ b) = endCount a + endCount b := by
  simp [endCount, List.filter_append]

theorem endCount_eq_zero_of_audio (l : List (List Nat))
    (h : ∀ f ∈ l, f.head? = some 18) : endCount l = 0 := by
  simp only [endCount, List.length_eq_zero]
  rw [List.filter_eq_nil_iff]
  intro f hf
  simp [h f hf]

/-- Running the drain loop only ever appends AUDIO frames (TYPE `0x12`) to
the TCP write list and the pre-connect queue; it never touches the
`connected`/`ended` flags. -/
theorem fgwDrainGo_extend (f : Nat) : ∀ s : FgwSess,
    ∃ nw nq : List (List Nat),
      (∀ fr ∈ nw, fr.head? = some 18) ∧ (∀ fr ∈ nq, fr.head? = some 18) ∧
      (fgwDrainGo f s).writes = s.writes ++ nw ∧
      (fgwDrainGo f s).queue = s.queue ++ nq ∧
      (fgwDrainGo f s).ended = s.ended ∧
      (fgwDrainGo f s).connected = s.connected := by
  induction f with
  | zero =>
    intro s
    exact ⟨[], [], by simp, by simp, by simp [fgwDrainGo], by simp [fgwDrainGo],
      by simp [fgwDrainGo], by simp [fgwDrainGo]⟩
  | succ f ih =>
    intro s
    by_cases hb : 640 ≤ s.audioBuffer.length
    · by_cases he : s.ended = true
      · refine ⟨[], [], by simp, by simp, ?_, ?_, ?_, ?_⟩ <;>
          rw [fgwDrainGo, if_pos hb] <;> simp [he]
      · have he' : s.ended = false := by simpa using he
        by_cases hc : s.connected = true
        · obtain ⟨nw, nq, h18w, h18q, hw, hq, hhe, hhc⟩ :=
            ih { s with audioBuffer := s.audioBuffer.drop 640,
                        writes := s.writes ++ [buildFrame 18 (s.audioBuffer.take 640)] }
          refine ⟨buildFrame 18 (s.audioBuffer.take 640) :: nw, nq, ?_, h18q, ?_, ?_, ?_, ?_⟩
          · intro fr hfr
            rcases List.mem_cons.mp hfr with h1 | h2
            · subst h1; rfl
            · exact h18w fr h2
          all_goals rw [fgwDrainGo, if_pos hb] <;> simp only [he', hc] <;>
            simp_all
        · have hc' : s.connected = false := by simpa using hc
          obtain ⟨nw, nq, h18w, h18q, hw, hq, hhe, hhc⟩ :=
            ih { s with audioBuffer := s.audioBuffer.drop 640,
                        queue := s.queue ++ [buildFrame 18 (s.audioBuffer.take 640)] }
          refine ⟨nw, buildFrame 18 (s.audioBuffer.take 640) :: nq, h18w, ?_, ?_, ?_, ?_, ?_⟩
          · intro fr hfr
            rcases List.mem_cons.mp hfr with h1 | h2
            · subst h1; rfl
            · exact h18q fr h2
          all_goals rw [fgwDrainGo, if_pos hb] <;> simp only [he', hc'] <;>
            simp_all
    · exact ⟨[], [], by simp, by simp, by rw [fgwDrainGo, if_neg hb]; simp,
        by rw [fgwDrainGo, if_neg hb]; simp, by rw [fgwDrainGo, if_neg hb],
        by rw [fgwDrainGo, if_neg hb]⟩

/-- Session invariant tying END frames to the `ended` latch: the queue only
ever holds AUDIO frames, at most one END frame is ever written, and none
before the latch is set. -/
def framesOk (s : FgwSess) : Prop :=
  (∀ f ∈ s.queue, f.head? = some 18) ∧ endCount s.writes ≤ 1 ∧
    (s.ended = false → endCount s.writes = 0)

theorem fgwStep_framesOk (sp : List Nat) (s : FgwSess) (e : FgwEv) (h : framesOk s) :
    framesOk (fgwStep sp s e) := by
  obtain ⟨hq, hle, hz⟩ := h
  cases e with
  | connect =>
    refine ⟨by simp [fgwStep], ?_, ?_⟩ <;>
      simp only [fgwStep, endCount_append,
        endCount_eq_zero_of_audio s.queue hq,
        show endCount [buildFrame 1 sp] = 0 from by simp [endCount, buildFrame]]
    · simpa using hle
    · simpa using hz
  | udp msg =>
    by_cases h12 : msg.length < 12
    · simpa [fgwStep, if_pos h12] using ⟨hq, hle, hz⟩
    · cases hp : rtpPayload msg with
      | none => simpa [fgwStep, if_neg h12, hp] using ⟨hq, hle, hz⟩
      | some p =>
        have hstep : fgwStep sp s (FgwEv.udp msg)
            = fgwDrainLoop { s with audioBuffer := s.audioBuffer ++ p } := by
          simp [fgwStep, if_neg h12, hp]
        rw [hstep]
        obtain ⟨nw, nq, h18w, h18q, hw, hq', hhe, hhc⟩ :=
          fgwDrainGo_extend (s.audioBuffer ++ p).length
            { s with audioBuffer := s.audioBuffer ++ p }
        unfold fgwDrainLoop
        refine ⟨?_, ?_, ?_⟩
        · intro f hf
          rw [hq'] at hf
          rcases List.mem_append.mp hf with h1 | h2
          · exact hq f (by simpa using h1)
          · exact h18q f h2
        · rw [hw, endCount_append, endCount_eq_zero_of_audio nw h18w]
          simpa using hle
        · intro hend
          rw [hhe] at hend
          rw [hw, endCount_append, endCount_eq_zero_of_audio nw h18w]
          simpa using hz (by simpa using hend)
  | terminal =>
    by_cases he : s.ended = true
    · simpa [fgwStep, he] using ⟨hq, hle, hz⟩
    · have he' : s.ended = false := by simpa using he
      by_cases hc : s.connected = true
      · refine ⟨by simp [fgwStep, he', hc]; exact hq, ?_, ?_⟩
        · simp only [fgwStep, he', hc]
          simp only [Bool.false_eq_true, if_false, if_true, endCount_append]
          rw [hz he']
          simp [endCount, buildFrame]
        · simp [fgwStep, he', hc]
      · have hc' : s.connected = false := by simpa using hc
        refine ⟨by simp [fgwStep, he', hc']; exact hq, ?_, ?_⟩
        · simpa [fgwStep, he', hc'] using hle
        · simp [fgwStep, he', hc']

theorem foldl_framesOk (sp : List Nat) : ∀ (evs : List FgwEv) (s : FgwSess),
    framesOk s → framesOk (List.foldl (fgwStep sp) s evs) := by
  intro evs
  induction evs with
  | nil => intro s h; simpa using h
  | cons e evs ih =>
    intro s h
    exact ih _ (fgwStep_framesOk sp s e h)

theorem runFgw_framesOk (sp : List Nat) (evs : List FgwEv) : framesOk (runFgw sp evs) :=
  foldl_framesOk sp evs initFgwSess ⟨by simp [initFgwSess], by simp [initFgwSess, endCount],
    fun _ => by simp [initFgwSess, endCount]⟩

/-- With the `ended` latch set, one drain pass writes and queues nothing
(the `if (sess.ended) return` fires before any write or push). -/
theorem fgwDrainGo_ended (f : Nat) (s : FgwSess) (he : s.ended = true) :
    (fgwDrainGo f s).writes = s.writes ∧ (fgwDrainGo f s).ended = true ∧
      (fgwDrainGo f s).queue = s.queue := by
  cases f with
  | zero => simp [fgwDrainGo, he]
  | succ f =>
    by_cases hb : 640 ≤ s.audioBuffer.length
    · rw [fgwDrainGo, if_pos hb]; simp [he]
    · rw [fgwDrainGo, if_neg hb]; simp [he]

/-- Once `ended` is set, the UDP path and further terminal causes write
nothing more to the socket (and the latch stays set). -/
theorem fgwStep_after_ended (sp : List Nat) (s : FgwSess) (e : FgwEv)
    (he : s.ended = true) (hne : e ≠ FgwEv.connect) :
    (fgwStep sp s e).writes = s.writes ∧ (fgwStep sp s e).ended = true := by
  cases e with
  | connect => exact absurd rfl hne
  | udp msg =>
    by_cases h12 : msg.length < 12
    · simp [fgwStep, if_pos h12, he]
    · cases hp : rtpPayload msg with
      | none => simp [fgwStep, if_neg h12, hp, he]
      | some p =>
        have hstep : fgwStep sp s (FgwEv.udp msg)
            = fgwDrainLoop { s with audioBuffer := s.audioBuffer ++ p } := by
          simp [fgwStep, if_neg h12, hp]
        rw [hstep]
        unfold fgwDrainLoop
        obtain ⟨hw, hhe, _⟩ := fgwDrainGo_ended (s.audioBuffer ++ p).length
          { s with audioBuffer := s.audioBuffer ++ p } (by simpa using he)
        exact ⟨by simpa using hw, hhe⟩
  | terminal => simp [fgwStep, he]

theorem foldl_after_ended (sp : List Nat) : ∀ (evs : List FgwEv) (s : FgwSess),
    s.ended = true → FgwEv.connect ∉ evs →
    (List.foldl (fgwStep sp) s evs).writes = s.writes := by
  intro evs
  induction evs with
  | nil => intro s _ _; rfl
  | cons e evs ih =>
    intro s he hni
    have hne : e ≠ FgwEv.connect := fun h => hni (h ▸ List.mem_cons_self e evs)
    obtain ⟨hw, he'⟩ := fgwStep_after_ended sp s e he hne
    rw [List.foldl_cons, ih _ he' (fun h => hni (List.mem_cons_of_mem e h)), hw]

/-- Counterexample to **C2** as stated: a terminal cause (for example an
`/unregister` or a UDP error) that arrives before the TCP connect
completes closes the session with *zero* END frames written —
`sendEndAndClose` only writes END `if (sess.connected)` (mti-gw.js line
498).  The claim demands exactly one END on *every* terminal cause. -/
theorem C2_counterexample :
    (runFgw [] [FgwEv.terminal]).writes = [] ∧
      endCount (runFgw [] [FgwEv.terminal]).writes = 0 := by
  decide

/-- **C2 (amended).** At most one END frame is ever written in any event
sequence; on a terminal cause that fires while the TCP socket is
*connected* and the session not yet ended, the END frame (type 0, length
0) is written exactly once, and — provided the TCP connect does not
complete after teardown began — nothing further is ever written to the
socket (in particular no AUDIO frame is written or queued once the
`ended` latch is set). -/
theorem C2_end_discipline (sp : List Nat) :
    (∀ evs : List FgwEv, endCount (runFgw sp evs).writes ≤ 1) ∧
    (∀ pre post : List FgwEv, FgwEv.connect ∉ post →
      (runFgw sp pre).connected = true → (runFgw sp pre).ended = false →
      endCount (runFgw sp (pre ++ FgwEv.terminal :: post)).writes = 1 ∧
      (runFgw sp (pre ++ FgwEv.terminal :: post)).writes
        = (runFgw sp pre).writes ++ [buildFrame 0 []]) := by
  constructor
  · intro evs
    exact (runFgw_framesOk sp evs).2.1
  · intro pre post hni hc he
    set s0 := runFgw sp pre with hs0
    have hsplit : runFgw sp (pre ++ FgwEv.terminal :: post)
        = List.foldl (fgwStep sp) (fgwStep sp s0 FgwEv.terminal) post := by
      rw [hs0]
      unfold runFgw
      rw [List.foldl_append, List.foldl_cons]
    have hterm : fgwStep sp s0 FgwEv.terminal
        = { s0 with ended := true, writes := s0.writes ++ [buildFrame 0 []] } := by
      simp [fgwStep, he, hc]
    have hwrites : (runFgw sp (pre ++ FgwEv.terminal :: post)).writes
        = s0.writes ++ [buildFrame 0 []] := by
      rw [hsplit, hterm]
      exact foldl_after_ended sp post _ rfl hni
    refine ⟨?_, hwrites⟩
    rw [hwrites, endCount_append, (runFgw_framesOk sp pre).2.2 he]
    simp [endCount, buildFrame]

/-- Witness for `C2_end_discipline`: connect, then two terminal causes;
exactly one END frame is written. -/
theorem C2_end_discipline_witness :
    endCount (runFgw [] ([FgwEv.connect] ++ FgwEv.terminal :: [FgwEv.terminal])).writes = 1 :=
  ((C2_end_discipline []).2 [FgwEv.connect] [FgwEv.terminal]
    (by decide) (by decide) (by decide)).1

/-! ## TAP: `server/tap-service.js` (first, refactored variant, lines 1-869)

### C3: idempotent `cleanupSession` (lines 372-471)

`cleanupSession` starts with a synchronous block — `sessions.get(uuid)`,
`if (!sess) return`, `if (sess.cleaned) return`, `sess.cleaned = true` —
with no `await` inside, so in Node's single-threaded execution it is
atomic.  The destructive teardown steps that follow (`/unregister` HTTP
calls, bridge destroys, channel hangups, reverse-index removal) each sit
behind an `await`, so concurrent invocations for the same CallId can
interleave at those points; the final `sessions.delete(uuid)` removes the
session.  We model each invocation as a small program and quantify over
all interleavings. -/

inductive TapEffect
  | unregisterGw
  | destroyBridge (b : String)
  | hangupChannel (c : String)
  | removeIndexEntry (c : String)
deriving Repr, DecidableEq

/-- Program counter of one `cleanupSession` invocation: `idle` before its
synchronous entry block ran, `working k` after passing the latch having
performed `k` destructive steps, `finished` after returning (either as a
no-op or after `sessions.delete`). -/
inductive CleanupPc
  | idle
  | working (k : Nat)
  | finished
deriving Repr, DecidableEq

structure TapCState where
  sessionPresent : Bool
  cleaned : Bool
  pcs : Nat → CleanupPc
  log : List (Nat × TapEffect)

def initTapCState : TapCState :=
  { sessionPresent := true, cleaned := false, pcs := fun _ => CleanupPc.idle, log := [] }

/-- One scheduler step: invocation `i` advances by one atomic block.
`idle`: run the synchronous entry — return if the session is gone or the
latch is already set, otherwise set the latch (before any effect).
`working k`: perform the next destructive step, or, when all are done,
`sessions.delete(uuid)` and return. -/
def tapCleanupStep (effs : List TapEffect) (st : TapCState) (i : Nat) : TapCState :=
  match st.pcs i with
  | .idle =>
    if st.sessionPresent = false ∨ st.cleaned = true then
      { st with pcs := Function.update st.pcs i CleanupPc.finished }
    else
      { st with cleaned := true, pcs := Function.update st.pcs i (CleanupPc.working 0) }
  | .working k =>
    if h : k < effs.length then
      { st with log := st.log ++ [(i, effs.get ⟨k, h⟩)],
                pcs := Function.update st.pcs i (CleanupPc.working (k + 1)) }
    else
      { st with sessionPresent := false,
                pcs := Function.update st.pcs i CleanupPc.finished }
  | .finished => st

def runTapCleanup (effs : List TapEffect) (sched : List Nat) : TapCState :=
  sched.foldl (tapCleanupStep effs) initTapCState

def tagAll (i : Nat) (l : List TapEffect) : List (Nat × TapEffect) :=
  l.map (fun e => (i, e))

/-- Reachable-state invariant: either nobody passed the latch yet (no
effects), or exactly one invocation owns the teardown and the log is the
prefix of the teardown it has performed, or the owner finished (log is
the full teardown, session deleted).  In every case all other invocations
are idle or returned without effects. -/
def TapCInv (effs : List TapEffect) (st : TapCState) : Prop :=
  (st.cleaned = false ∧ st.sessionPresent = true ∧ st.log = [] ∧
    ∀ j, st.pcs j = CleanupPc.idle ∨ st.pcs j = CleanupPc.finished)
  ∨ (∃ i k, k ≤ effs.length ∧ st.cleaned = true ∧ st.sessionPresent = true ∧
      st.log = tagAll i (effs.take k) ∧ st.pcs i = CleanupPc.working k ∧
      ∀ j, j ≠ i → (st.pcs j = CleanupPc.idle ∨ st.pcs j = CleanupPc.finished))
  ∨ (∃ i, st.cleaned = true ∧ st.sessionPresent = false ∧ st.log = tagAll i effs ∧
      ∀ j, st.pcs j = CleanupPc.idle ∨ st.pcs j = CleanupPc.finished)

theorem tapCleanupStep_idle_latch (effs : List TapEffect) (st : TapCState) (i : Nat)
    (hi : st.pcs i = CleanupPc.idle) (hsp : st.sessionPresent = true)
    (hcl : st.cleaned = false) :
    tapCleanupStep effs st i
      = { st with cleaned := true,
                  pcs := Function.update st.pcs i (CleanupPc.working 0) } := by
  simp only [tapCleanupStep, hi]
  rw [if_neg (by simp [hsp, hcl])]

theorem tapCleanupStep_idle_noop (effs : List TapEffect) (st : TapCState) (i : Nat)
    (hi : st.pcs i = CleanupPc.idle)
    (hcond : st.sessionPresent = false ∨ st.cleaned = true) :
    tapCleanupStep effs st i
      = { st with pcs := Function.update st.pcs i CleanupPc.finished } := by
  simp only [tapCleanupStep, hi]
  rw [if_pos hcond]

theorem tapCleanupStep_working_effect (effs : List TapEffect) (st : TapCState) (i k : Nat)
    (hi : st.pcs i = CleanupPc.working k) (hlt : k < effs.length) :
    tapCleanupStep effs st i
      = { st with log := st.log ++ [(i, effs.get ⟨k, hlt⟩)],
                  pcs := Function.update st.pcs i (CleanupPc.working (k + 1)) } := by
  simp only [tapCleanupStep, hi]
  rw [dif_pos hlt]

theorem tapCleanupStep_working_delete (effs : List TapEffect) (st : TapCState) (i k : Nat)
    (hi : st.pcs i = CleanupPc.working k) (hge : ¬ k < effs.length) :
    tapCleanupStep effs st i
      = { st with sessionPresent := false,
                  pcs := Function.update st.pcs i CleanupPc.finished } := by
  simp only [tapCleanupStep, hi]
  rw [dif_neg hge]

theorem tapCleanupStep_finished (effs : List TapEffect) (st : TapCState) (i : Nat)
    (hi : st.pcs i = CleanupPc.finished) : tapCleanupStep effs st i = st := by
  simp only [tapCleanupStep, hi]

theorem tagAll_take_succ (i : Nat) (effs : List TapEffect) (k : Nat) (hlt : k < effs.length) :
    tagAll i (effs.take (k + 1)) = tagAll i (effs.take k) ++ [(i, effs.get ⟨k, hlt⟩)] := by
  rw [← List.take_concat_get' effs k hlt]
  simp only [tagAll, List.map_append, List.map_cons, List.map_nil, List.get_eq_getElem]

theorem tapCleanupStep_inv (effs : List TapEffect) (st : TapCState) (i : Nat)
    (h : TapCInv effs st) : TapCInv effs (tapCleanupStep effs st i) := by
  rcases h with ⟨hcl, hsp, hlog, hpcs⟩ | ⟨o, k, hk, hcl, hsp, hlog, howner, hothers⟩
    | ⟨o, hcl, hsp, hlog, hpcs⟩
  · rcases hpcs i with hi | hi
    · rw [tapCleanupStep_idle_latch effs st i hi hsp hcl]
      right; left
      refine ⟨i, 0, by omega, rfl, hsp, by simp [tagAll, hlog], by simp, ?_⟩
      intro j hj
      simp only [Function.update_noteq hj]
      exact hpcs j
    · rw [tapCleanupStep_finished effs st i hi]
      exact Or.inl ⟨hcl, hsp, hlog, hpcs⟩
  · by_cases hio : i = o
    · subst hio
      by_cases hlt : k < effs.length
      · rw [tapCleanupStep_working_effect effs st i k howner hlt]
        right; left
        refine ⟨i, k + 1, by omega, hcl, hsp, ?_, by simp, ?_⟩
        · simp only [hlog, tagAll_take_succ i effs k hlt]
        · intro j hj
          simp only [Function.update_noteq hj]
          exact hothers j hj
      · rw [tapCleanupStep_working_delete effs st i k howner hlt]
        right; right
        have hkeq : k = effs.length := by omega
        refine ⟨i, hcl, rfl, by rw [hlog, hkeq, List.take_length], ?_⟩
        intro j
        by_cases hj : j = i
        · subst hj; simp
        · simp only [Function.update_noteq hj]
          exact hothers j hj
    · rcases hothers i hio with hi | hi
      · rw [tapCleanupStep_idle_noop effs st i hi (Or.inr hcl)]
        right; left
        refine ⟨o, k, hk, hcl, hsp, hlog, ?_, ?_⟩
        · show Function.update st.pcs i CleanupPc.finished o = CleanupPc.working k
          rw [Function.update_noteq (Ne.symm hio)]
          exact howner
        · intro j hj
          by_cases hji : j = i
          · subst hji; simp
          · simp only [Function.update_noteq hji]
            exact hothers j hj
      · rw [tapCleanupStep_finished effs st i hi]
        exact Or.inr (Or.inl ⟨o, k, hk, hcl, hsp, hlog, howner, hothers⟩)
  · rcases hpcs i with hi | hi
    · rw [tapCleanupStep_idle_noop effs st i hi (Or.inl hsp)]
      right; right
      refine ⟨o, hcl, hsp, hlog, ?_⟩
      intro j
      by_cases hj : j = i
      · subst hj; simp
      · simp only [Function.update_noteq hj]
        exact hpcs j
    · rw [tapCleanupStep_finished effs st i hi]
      exact Or.inr (Or.inr ⟨o, hcl, hsp, hlog, hpcs⟩)

theorem foldl_tapCInv (effs : List TapEffect) : ∀ (sched : List Nat) (st : TapCState),
    TapCInv effs st → TapCInv effs (sched.foldl (tapCleanupStep effs) st) := by
  intro sched
  induction sched with
  | nil => intro st h; exact h
  | cons i sched ih =>
    intro st h
    exact ih _ (tapCleanupStep_inv effs st i h)

theorem runTapCleanup_inv (effs : List TapEffect) (sched : List Nat) :
    TapCInv effs (runTapCleanup effs sched) :=
  foldl_tapCInv effs sched initTapCState
    (Or.inl ⟨rfl, rfl, rfl, fun _ => Or.inl rfl⟩)

/-- **C3.** For every CallId and every sequence of terminal-event-driven
invocations of `cleanupSession` (duplicates, in any order and under any
interleaving of their await points), the destructive teardown steps are
executed at most once and in order: the log of performed effects is
always a prefix of the single teardown sequence, all of it performed by
one owning invocation (so every other invocation is a no-op), and no
effect is ever performed before the `cleaned` latch is set. -/
theorem C3_cleanup_idempotent (effs : List TapEffect) (sched : List Nat) :
    ∃ i k, k ≤ effs.length ∧
      (runTapCleanup effs sched).log = tagAll i (effs.take k) ∧
      ((runTapCleanup effs sched).cleaned = false → (runTapCleanup effs sched).log = []) := by
  rcases runTapCleanup_inv effs sched with ⟨hcl, _, hlog, _⟩
    | ⟨i, k, hk, hcl, _, hlog, _, _⟩ | ⟨i, hcl, _, hlog, _⟩
  · exact ⟨0, 0, by omega, by simp [hlog, tagAll], fun _ => hlog⟩
  · exact ⟨i, k, hk, hlog, fun h => by rw [hcl] at h; cases h⟩
  · exact ⟨i, effs.length, le_refl _, by simpa [List.take_length] using hlog,
      fun h => by rw [hcl] at h; cases h⟩

/-- Witness for `C3_cleanup_idempotent`: two overlapping invocations of a
two-step teardown under a concrete interleaving. -/
theorem C3_cleanup_idempotent_witness :
    ∃ i k, k ≤ ([TapEffect.unregisterGw, TapEffect.destroyBridge "b1"] : List TapEffect).length ∧
      (runTapCleanup [TapEffect.unregisterGw, TapEffect.destroyBridge "b1"]
          [0, 1, 0, 0, 1, 0, 1]).log
        = tagAll i (([TapEffect.unregisterGw,
            TapEffect.destroyBridge "b1"] : List TapEffect).take k) ∧
      ((runTapCleanup [TapEffect.unregisterGw, TapEffect.destroyBridge "b1"]
          [0, 1, 0, 0, 1, 0, 1]).cleaned = false →
        (runTapCleanup [TapEffect.unregisterGw, TapEffect.destroyBridge "b1"]
          [0, 1, 0, 0, 1, 0, 1]).log = []) :=
  C3_cleanup_idempotent [TapEffect.unregisterGw, TapEffect.destroyBridge "b1"]
    [0, 1, 0, 0, 1, 0, 1]

/-! ### C4: single-flight bridge creation (`getOrCreateBridgeDir`,
tap-service.js lines 349-367)

For one `(session, direction)` key: `sess.bridges[dir]` is the bridge
cache, `sess.bridgePromises[dir]` the in-flight-promise slot.  A caller's
synchronous head — check `bridges[dir]`, check `bridgePromises[dir]`,
otherwise install a fresh promise and start the creation request — is one
atomic block; the `await`s are the interleaving points.  The async
creation body sets `sess.bridges[dir]` just before its promise resolves.
Crucially, `sess.bridgePromises[dir] = null` (line 365) runs only *after*
a successful `await` on line 364: when the creation rejects, the `await`
throws and the slot keeps the rejected promise. -/

inductive PromState
  | pending
  | resolved (b : Nat)
  | rejected
deriving Repr, DecidableEq

inductive SfPc
  | entry
  | awaiting (q : Nat) (creator : Bool)
  | done (b : Nat)
  | failed
deriving Repr, DecidableEq

structure SfState where
  bridges : Option Nat
  slot : Option Nat
  promises : List PromState
  pcs : Nat → SfPc

def initSfState : SfState :=
  { bridges := none, slot := none, promises := [], pcs := fun _ => SfPc.entry }

/-- Scheduler events: advance caller `i` by one atomic block, or let the
pending creation request of promise `q` complete (`some b`: the REST call
returned bridge `b`, so the body stores it in `bridges[dir]` and
resolves; `none`: `bridge.create` failed, the body throws and the promise
rejects). -/
inductive SfEv
  | step (i : Nat)
  | complete (q : Nat) (r : Option Nat)
deriving Repr, DecidableEq

def sfStep (st : SfState) (e : SfEv) : SfState :=
  match e with
  | .step i =>
    match st.pcs i with
    | .entry =>
      match st.bridges with
      | some b => { st with pcs := Function.update st.pcs i (SfPc.done b) }
      | none =>
        match st.slot with
        | some q => { st with pcs := Function.update st.pcs i (SfPc.awaiting q false) }
        | none =>
          { st with promises := st.promises ++ [PromState.pending],
                    slot := some st.promises.length,
                    pcs := Function.update st.pcs i (SfPc.awaiting st.promises.length true) }
    | .awaiting q c =>
      match st.promises[q]? with
      | some (.resolved b) =>
        if c then { st with slot := none, pcs := Function.update st.pcs i (SfPc.done b) }
        else { st with pcs := Function.update st.pcs i (SfPc.done b) }
      | some .rejected => { st with pcs := Function.update st.pcs i SfPc.failed }
      | _ => st
    | .done _ => st
    | .failed => st
  | .complete q r =>
    match st.promises[q]? with
    | some .pending =>
      match r with
      | some b => { st with promises := st.promises.set q (PromState.resolved b),
                            bridges := some b }
      | none => { st with promises := st.promises.set q PromState.rejected }
    | _ => st

def runSf (evs : List SfEv) : SfState :=
  evs.foldl sfStep initSfState

/-- Reachable-state invariant for the single-flight machine. -/
def SfInv (st : SfState) : Prop :=
  st.promises.length ≤ 1 ∧
  (∀ q, st.slot = some q → q = 0 ∧ st.promises.length = 1) ∧
  (∀ b, st.bridges = some b → st.promises[0]? = some (PromState.resolved b)) ∧
  (∀ b, st.promises[0]? = some (PromState.resolved b) → st.bridges = some b) ∧
  (st.promises.length = 1 → st.slot = none → ∃ b, st.bridges = some b) ∧
  (∀ i b, st.pcs i = SfPc.done b → st.bridges = some b) ∧
  (∀ i q c, st.pcs i = SfPc.awaiting q c → q = 0 ∧ st.promises.length = 1) ∧
  ((st.promises[0]? = some PromState.pending ∨ st.promises[0]? = some PromState.rejected) →
    st.slot = some 0)

theorem sfStep_inv (st : SfState) (e : SfEv) (h : SfInv st) : SfInv (sfStep st e) := by
  obtain ⟨hA, hB, hC, hD, hE, hF, hG, hJ⟩ := h
  cases e with
  | step i =>
    cases hpc : st.pcs i with
    | entry =>
      cases hbr : st.bridges with
      | some b =>
        have hstep : sfStep st (SfEv.step i)
            = { st with pcs := Function.update st.pcs i (SfPc.done b) } := by
          simp only [sfStep, hpc, hbr]
        rw [hstep]
        refine ⟨hA, hB, hC, hD, hE, ?_, ?_, hJ⟩
        · intro j b' hj
          by_cases hji : j = i
          · subst hji
            simp only [Function.update_same] at hj
            cases hj
            exact hbr
          · simp only [Function.update_noteq hji] at hj
            exact hF j b' hj
        · intro j q c hj
          by_cases hji : j = i
          · subst hji; simp only [Function.update_same] at hj; cases hj
          · simp only [Function.update_noteq hji] at hj
            exact hG j q c hj
      | none =>
        cases hslot : st.slot with
        | some q =>
          have hstep : sfStep st (SfEv.step i)
              = { st with pcs := Function.update st.pcs i (SfPc.awaiting q false) } := by
            simp only [sfStep, hpc, hbr, hslot]
          rw [hstep]
          refine ⟨hA, hB, hC, hD, hE, ?_, ?_, hJ⟩
          · intro j b' hj
            by_cases hji : j = i
            · subst hji; simp only [Function.update_same] at hj; cases hj
            · simp only [Function.update_noteq hji] at hj
              exact hF j b' hj
          · intro j q' c hj
            by_cases hji : j = i
            · subst hji
              simp only [Function.update_same] at hj
              cases hj
              exact hB q hslot
            · simp only [Function.update_noteq hji] at hj
              exact hG j q' c hj
        | none =>
          have hlen0 : st.promises.length = 0 := by
            rcases Nat.lt_or_ge st.promises.length 1 with h1 | h1
            · omega
            · exfalso
              obtain ⟨b, hb⟩ := hE (by omega) hslot
              rw [hbr] at hb
              cases hb
          have hnil : st.promises = [] := List.length_eq_zero.mp hlen0
          have hstep : sfStep st (SfEv.step i)
              = { st with promises := st.promises ++ [PromState.pending],
                          slot := some st.promises.length,
                          pcs := Function.update st.pcs i
                            (SfPc.awaiting st.promises.length true) } := by
            simp only [sfStep, hpc, hbr, hslot]
          rw [hstep, hnil]
          refine ⟨by simp, ?_, ?_, ?_, ?_, ?_, ?_, ?_⟩
          · intro q hq
            simp only [List.nil_append] at hq ⊢
            have hq' : q = 0 := by
              have h0 := hq
              simp at h0
              omega
            simp [hq']
          · intro b hb
            simp only at hb
            rw [hbr] at hb
            cases hb
          · intro b hb
            simp at hb
          · intro _ hno
            simp only at hno
            cases hno
          · intro j b' hj
            simp only at hj
            by_cases hji : j = i
            · subst hji; simp only [Function.update_same] at hj; cases hj
            · simp only [Function.update_noteq hji] at hj
              exfalso
              have := hF j b' hj
              rw [hbr] at this
              cases this
          · intro j q' c hj
            simp only at hj
            by_cases hji : j = i
            · subst hji
              simp only [Function.update_same] at hj
              cases hj
              simp
            · simp only [Function.update_noteq hji] at hj
              exact absurd (hG j q' c hj).2 (by omega)
          · intro _
            simp
    | awaiting q c =>
      obtain ⟨hq0, hlen1⟩ := hG i q c hpc
      subst hq0
      obtain ⟨p, hp⟩ := List.length_eq_one.mp hlen1
      cases hpv : p with
      | pending =>
        have hstep : sfStep st (SfEv.step i) = st := by
          simp only [sfStep, hpc, hp, hpv]
          rfl
        rw [hstep]
        exact ⟨hA, hB, hC, hD, hE, hF, hG, hJ⟩
      | resolved b =>
        have hget : st.promises[0]? = some (PromState.resolved b) := by
          rw [hp, hpv]; rfl
        have hbr : st.bridges = some b := hD b hget
        cases c with
        | true =>
          have hstep : sfStep st (SfEv.step i)
              = { st with slot := none, pcs := Function.update st.pcs i (SfPc.done b) } := by
            simp only [sfStep, hpc, hget]
            rfl
          rw [hstep]
          refine ⟨hA, ?_, hC, hD, ?_, ?_, ?_, ?_⟩
          · intro q hq; cases hq
          · intro _ _
            exact ⟨b, hbr⟩
          · intro j b' hj
            by_cases hji : j = i
            · subst hji
              simp only [Function.update_same] at hj
              cases hj
              exact hbr
            · simp only [Function.update_noteq hji] at hj
              exact hF j b' hj
          · intro j q' c' hj
            by_cases hji : j = i
            · subst hji; simp only [Function.update_same] at hj; cases hj
            · simp only [Function.update_noteq hji] at hj
              exact hG j q' c' hj
          · intro hor
            rcases hor with hx | hx <;> rw [hget] at hx <;> cases hx
        | false =>
          have hstep : sfStep st (SfEv.step i)
              = { st with pcs := Function.update st.pcs i (SfPc.done b) } := by
            simp only [sfStep, hpc, hget]
            rfl
          rw [hstep]
          refine ⟨hA, hB, hC, hD, hE, ?_, ?_, hJ⟩
          · intro j b' hj
            by_cases hji : j = i
            · subst hji
              simp only [Function.update_same] at hj
              cases hj
              exact hbr
            · simp only [Function.update_noteq hji] at hj
              exact hF j b' hj
          · intro j q' c' hj
            by_cases hji : j = i
            · subst hji; simp only [Function.update_same] at hj; cases hj
            · simp only [Function.update_noteq hji] at hj
              exact hG j q' c' hj
      | rejected =>
        have hget : st.promises[0]? = some PromState.rejected := by
          rw [hp, hpv]; rfl
        have hstep : sfStep st (SfEv.step i)
            = { st with pcs := Function.update st.pcs i SfPc.failed } := by
          simp only [sfStep, hpc, hget]
        rw [hstep]
        refine ⟨hA, hB, hC, hD, hE, ?_, ?_, hJ⟩
        · intro j b' hj
          by_cases hji : j = i
          · subst hji; simp only [Function.update_same] at hj; cases hj
          · simp only [Function.update_noteq hji] at hj
            exact hF j b' hj
        · intro j q' c' hj
          by_cases hji : j = i
          · subst hji; simp only [Function.update_same] at hj; cases hj
          · simp only [Function.update_noteq hji] at hj
            exact hG j q' c' hj
    | done b =>
      have hstep : sfStep st (SfEv.step i) = st := by
        simp only [sfStep, hpc]
      rw [hstep]
      exact ⟨hA, hB, hC, hD, hE, hF, hG, hJ⟩
    | failed =>
      have hstep : sfStep st (SfEv.step i) = st := by
        simp only [sfStep, hpc]
      rw [hstep]
      exact ⟨hA, hB, hC, hD, hE, hF, hG, hJ⟩
  | complete q r =>
    cases hq : st.promises[q]? with
    | none =>
      have hstep : sfStep st (SfEv.complete q r) = st := by
        simp only [sfStep, hq]
      rw [hstep]
      exact ⟨hA, hB, hC, hD, hE, hF, hG, hJ⟩
    | some p =>
      cases hpv : p with
      | pending =>
        have hq' : st.promises[q]? = some PromState.pending := by rw [hq, hpv]
        have hqlt : q < st.promises.length := by
          by_contra hge
          rw [List.getElem?_eq_none (by omega)] at hq
          cases hq
        have hq0 : q = 0 := by omega
        subst hq0
        obtain ⟨p0, hp0⟩ := List.length_eq_one.mp (by omega : st.promises.length = 1)
        have hp0p : p0 = PromState.pending := by
          rw [hp0] at hq'
          simpa using hq'
        cases r with
        | some b =>
          have hstep : sfStep st (SfEv.complete 0 (some b))
              = { st with promises := st.promises.set 0 (PromState.resolved b),
                          bridges := some b } := by
            simp only [sfStep, hq']
          rw [hstep, hp0]
          refine ⟨by simp, ?_, ?_, ?_, ?_, ?_, ?_, ?_⟩
          · intro q' hq'f
            have := hB q' hq'f
            simpa [hp0] using this
          · intro b' hb'
            cases hb'
            rfl
          · intro b' hb'
            simp only [List.set] at hb'
            cases hb'
            rfl
          · intro _ _
            exact ⟨b, rfl⟩
          · intro j b' hj
            exfalso
            have := hC b' (hF j b' hj)
            rw [hq'] at this
            cases this
          · intro j q' c' hj
            have := hG j q' c' hj
            simpa [hp0] using this
          · intro hor
            rcases hor with hx | hx <;> simp only [List.set] at hx <;> cases hx
        | none =>
          have hstep : sfStep st (SfEv.complete 0 none)
              = { st with promises := st.promises.set 0 PromState.rejected } := by
            simp only [sfStep, hq']
          rw [hstep, hp0]
          refine ⟨by simp, ?_, ?_, ?_, ?_, ?_, ?_, ?_⟩
          · intro q' hq'f
            have := hB q' hq'f
            simpa [hp0] using this
          · intro b' hb'
            exfalso
            have := hC b' hb'
            rw [hq'] at this
            cases this
          · intro b' hb'
            simp only [List.set] at hb'
            cases hb'
          · intro _ hno
            exfalso
            obtain ⟨b, hb⟩ := hE (by omega) hno
            have := hC b hb
            rw [hq'] at this
            cases this
          · intro j b' hj
            exfalso
            have := hC b' (hF j b' hj)
            rw [hq'] at this
            cases this
          · intro j q' c' hj
            have := hG j q' c' hj
            simpa [hp0] using this
          · intro _
            exact hJ (Or.inl hq')
      | resolved b =>
        have hstep : sfStep st (SfEv.complete q r) = st := by
          simp only [sfStep, hq, hpv]
        rw [hstep]
        exact ⟨hA, hB, hC, hD, hE, hF, hG, hJ⟩
      | rejected =>
        have hstep : sfStep st (SfEv.complete q r) = st := by
          simp only [sfStep, hq, hpv]
        rw [hstep]
        exact ⟨hA, hB, hC, hD, hE, hF, hG, hJ⟩

theorem foldl_sfInv : ∀ (evs : List SfEv) (st : SfState),
    SfInv st → SfInv (evs.foldl sfStep st) := by
  intro evs
  induction evs with
  | nil => intro st h; exact h
  | cons e evs ih =>
    intro st h
    exact ih _ (sfStep_inv st e h)

theorem initSfState_inv : SfInv initSfState := by
  refine ⟨by simp [initSfState], ?_, ?_, ?_, ?_, ?_, ?_, ?_⟩
  · intro q hq; cases hq
  · intro b hb; cases hb
  · intro b hb; cases hb
  · intro h1 _; simp [initSfState] at h1
  · intro i b h; cases h
  · intro i q c h; cases h
  · intro hor; rcases hor with h | h <;> cases h

theorem runSf_inv (evs : List SfEv) : SfInv (runSf evs) :=
  foldl_sfInv evs initSfState initSfState_inv

/-- Counterexample to **C4** as stated: the schedule in which the first
snoop's caller installs the creation promise, the creation *fails*, the
caller's `await` throws (skipping the `sess.bridgePromises[dir] = null`
on line 365), and a retry caller then arrives.  The slot still holds the
rejected promise (`slot = some 0`), the retry coalesces onto it and fails
too, and no second creation is ever issued (`promises = [rejected]`) —
the cache slot is *not* invalidated and a retry can *not* create a new
bridge. -/
theorem C4_counterexample :
    (runSf [SfEv.step 0, SfEv.complete 0 none, SfEv.step 0, SfEv.step 1, SfEv.step 1]).slot
        = some 0
    ∧ (runSf [SfEv.step 0, SfEv.complete 0 none, SfEv.step 0, SfEv.step 1, SfEv.step 1]).pcs 1
        = SfPc.failed
    ∧ (runSf [SfEv.step 0, SfEv.complete 0 none, SfEv.step 0, SfEv.step 1, SfEv.step 1]).promises
        = [PromState.rejected] := by
  decide

/-- **C4 (amended).** Bridge creation per direction key is single-flight:
in every interleaving of any number of callers, at most one creation is
ever started, concurrent callers coalesce and every caller that obtains a
bridge obtains the *same* handle.  However, if the creation fails, the
slot keeps the rejected promise (it is not invalidated): from then on no
caller for that direction ever obtains a bridge, every retry coalescing
onto the dead promise. -/
theorem C4_single_flight (evs : List SfEv) :
    (runSf evs).promises.length ≤ 1 ∧
    (∀ i j b₁ b₂, (runSf evs).pcs i = SfPc.done b₁ → (runSf evs).pcs j = SfPc.done b₂ →
      b₁ = b₂) ∧
    ((runSf evs).promises[0]? = some PromState.rejected →
      (runSf evs).slot = some 0 ∧ ∀ i b, (runSf evs).pcs i ≠ SfPc.done b) := by
  obtain ⟨hA, hB, hC, hD, hE, hF, hG, hJ⟩ := runSf_inv evs
  refine ⟨hA, ?_, ?_⟩
  · intro i j b₁ b₂ hi hj
    have h1 := hF i b₁ hi
    have h2 := hF j b₂ hj
    rw [h1] at h2
    cases h2
    rfl
  · intro hrej
    refine ⟨hJ (Or.inr hrej), ?_⟩
    intro i b hdone
    have := hC b (hF i b hdone)
    rw [hrej] at this
    cases this

/-- Witness for `C4_single_flight`: two callers and a successful creation
returning bridge `7`; both callers end `done 7`, and the theorem equates
their handles. -/
theorem C4_single_flight_witness :
    (runSf [SfEv.step 0, SfEv.step 1, SfEv.complete 0 (some 7), SfEv.step 0,
        SfEv.step 1]).pcs 0 = SfPc.done 7
    ∧ (runSf [SfEv.step 0, SfEv.step 1, SfEv.complete 0 (some 7), SfEv.step 0,
        SfEv.step 1]).pcs 1 = SfPc.done 7
    ∧ (7 : Nat) = 7 :=
  ⟨by decide, by decide,
    (C4_single_flight [SfEv.step 0, SfEv.step 1, SfEv.complete 0 (some 7), SfEv.step 0,
        SfEv.step 1]).2.1 0 1 7 7 (by decide) (by decide)⟩

/-! ## SGW: `server/deepgram-gw.js` (second, dual-port variant, lines 267-1048)

The dual-port streaming gateway: `/register` pushes a pending binding per
direction with a 4 s TTL (`pushPending`/`popPending`, lines 495-507); the
first RTP packet of an unknown SSRC adopts the head of the direction's
pending FIFO (`resolveContextForNewSSRC`/`ensureSess`, lines 774-849)
subject to the session cap (`DG_MAX_SESSIONS`, lines 808-811); the
watchdog (lines 783-802) deletes inactive sessions.  We model the binding
and admission state; media forwarding (boot buffer, WebSocket sends) and
the widget broadcast are not involved in the claims. -/

inductive Dir
  | dIn
  | dOut
deriving Repr, DecidableEq

/-- Association-list lookup by decidable key equality (models JS `Map.get`). -/
def alookup {α β : Type} [DecidableEq α] (k : α) : List (α × β) → Option β
  | [] => none
  | (k', v) :: t => if k' = k then some v else alookup k t

/-- Models `Map.set`: replace the binding if present, else append. -/
def aset {α β : Type} [DecidableEq α] (k : α) (v : β) : List (α × β) → List (α × β)
  | [] => [(k, v)]
  | (k', v') :: t => if k' = k then (k, v) :: t else (k', v') :: aset k v t

/-- Models updating fields of the value stored under `k` (mutation of the
object held in the map). -/
def aupdate {α β : Type} [DecidableEq α] (k : α) (f : β → β) : List (α × β) → List (α × β)
  | [] => []
  | (k', v) :: t => if k' = k then (k', f v) :: t else (k', v) :: aupdate k f t

/-- Models `Map.delete`. -/
def adelete {α β : Type} [DecidableEq α] (k : α) : List (α × β) → List (α × β)
  | [] => []
  | (k', v) :: t => if k' = k then t else (k', v) :: adelete k t

/-- Registration context (`ctxByUuid`, deepgram-gw.js line 420). -/
structure DgCtx where
  exten : String
  caller : String
  callername : String
  lastTs : Nat
deriving Repr, DecidableEq

/-- Per-SSRC session (deepgram-gw.js lines 822-839), restricted to the
binding/admission/backoff fields. -/
structure DgSess where
  ssrc : Nat
  uuid : String
  dir : Dir
  exten : String
  caller : String
  callername : String
  room : String
  pkts : Nat
  bytes : Nat
  last : Nat
  reconnects : Nat
  closing : Bool
deriving Repr, DecidableEq

structure DgState where
  pendingIn : List (String × Nat)
  pendingOut : List (String × Nat)
  ctxByUuid : List (String × DgCtx)
  rtpSessions : List (Nat × DgSess)
  rtpPacketsIn : Nat
  rtpPacketsOut : Nat
deriving Repr, DecidableEq

def initDgState : DgState :=
  { pendingIn := [], pendingOut := [], ctxByUuid := [], rtpSessions := [],
    rtpPacketsIn := 0, rtpPacketsOut := 0 }

def PENDING_TTL_MS : Nat := 4000

def pendingOf (st : DgState) : Dir → List (String × Nat)
  | Dir.dIn => st.pendingIn
  | Dir.dOut => st.pendingOut

def withPending (st : DgState) (d : Dir) (l : List (String × Nat)) : DgState :=
  match d with
  | Dir.dIn => { st with pendingIn := l }
  | Dir.dOut => { st with pendingOut := l }

/-- `pushPending` (lines 495-500): push `{uuid, ts: now}` then keep only
entries with `now - x.ts < PENDING_TTL_MS` (JS `-` on a fresher `ts`
yields a negative number, which also passes the `< TTL` test; Nat
truncated subtraction gives 0, the same verdict). -/
def pushPending (st : DgState) (d : Dir) (uuid : String) (now : Nat) : DgState :=
  withPending st d
    ((pendingOf st d ++ [(uuid, now)]).filter (fun x => now - x.2 < PENDING_TTL_MS))

/-- `popPending` (lines 502-507): drop expired entries, then `shift()` the
head off the stored list. -/
def popPending (st : DgState) (d : Dir) (now : Nat) :
    Option (String × Nat) × DgState :=
  let l := (pendingOf st d).filter (fun x => now - x.2 < PENDING_TTL_MS)
  (l.head?, withPending st d l.tail)

/-- `/register` (lines 509-565): create or refresh the call context (empty
strings are falsy in JS, hence the `= ""` tests), and push a pending
binding when `dir` is `in` or `out`.  The `call-start` widget emission
carries no state relevant to the claims. -/
def dgRegister (st : DgState) (uuid exten caller callername : String)
    (dir : Option Dir) (now : Nat) : DgState :=
  if uuid = "" then st
  else
    let ctx :=
      match alookup uuid st.ctxByUuid with
      | none =>
        { exten := if exten = "" then "mix" else exten, caller := caller,
          callername := callername, lastTs := now }
      | some c =>
        { exten := if exten = "" then c.exten else exten,
          caller := if caller = "" then c.caller else caller,
          callername := if callername = "" then c.callername else callername,
          lastTs := now }
    let st1 := { st with ctxByUuid := aset uuid ctx st.ctxByUuid }
    match dir with
    | some d => pushPending st1 d uuid now
    | none => st1

/-- `/unregister` (lines 567-580): drop the registration context. -/
def dgUnregister (st : DgState) (uuid : String) : DgState :=
  { st with ctxByUuid := adelete uuid st.ctxByUuid }

def readUInt32BE (buf : List Nat) (o : Nat) : Nat :=
  ((buf.getD o 0 * 256 + buf.getD (o + 1) 0) * 256 + buf.getD (o + 2) 0) * 256
    + buf.getD (o + 3) 0

/-- `resolveContextForNewSSRC` (lines 774-781). -/
def resolveContextForNewSSRC (st : DgState) (d : Dir) (now : Nat) :
    (String × Option DgCtx) × DgState :=
  match popPending st d now with
  | (some p, st') => ((p.1, alookup p.1 st'.ctxByUuid), st')
  | (none, st') => (("unknown", none), st')

/-- `ensureSess` (lines 804-849): return the existing session, or — if the
cap `DG_MAX_SESSIONS` is not yet reached — create one bound to the popped
pending context (`ctx?.exten || 'mix'` etc.).  Returns `none` exactly
when the packet is dropped by the cap. -/
def dgEnsureSess (cap : Nat) (st : DgState) (ssrc : Nat) (d : Dir) (now : Nat) :
    DgState × Bool :=
  match alookup ssrc st.rtpSessions with
  | some _ => (st, true)
  | none =>
    if cap ≤ st.rtpSessions.length then (st, false)
    else
      let r := resolveContextForNewSSRC st d now
      let uuid := r.1.1
      let ctx := r.1.2
      let st1 := r.2
      let exten :=
        match ctx with
        | some c => if c.exten = "" then "mix" else c.exten
        | none => "mix"
      let caller :=
        match ctx with
        | some c => c.caller
        | none => ""
      let callername :=
        match ctx with
        | some c => c.callername
        | none => ""
      let sess : DgSess :=
        { ssrc := ssrc, uuid := uuid, dir := d, exten := exten, caller := caller,
          callername := callername, room := exten, pkts := 0, bytes := 0,
          last := now, reconnects := 0, closing := false }
      ({ st1 with rtpSessions := st1.rtpSessions ++ [(ssrc, sess)] }, true)

def bumpRtpCounter (st : DgState) (d : Dir) : DgState :=
  match d with
  | Dir.dIn => { st with rtpPacketsIn := st.rtpPacketsIn + 1 }
  | Dir.dOut => { st with rtpPacketsOut := st.rtpPacketsOut + 1 }

/-- `onRtpMessage(dir)` (lines 851-893): parse, demultiplex by the SSRC at
header offset 8, ensure the session (drop silently on `null`), then
update the per-session accounting and the `dg_rtp_packets_total`
counter. -/
def onRtpMessage (cap : Nat) (st : DgState) (d : Dir) (msg : List Nat) (now : Nat) :
    DgState :=
  if msg.length < 12 then st
  else
    let ssrc := readUInt32BE msg 8
    match rtpPayload msg with
    | none => st
    | some payload =>
      let r := dgEnsureSess cap st ssrc d now
      if r.2 = false then r.1
      else
        bumpRtpCounter
          { r.1 with rtpSessions :=
              aupdate ssrc (fun s =>
                { s with pkts := s.pkts + 1, bytes := s.bytes + payload.length,
                         last := now }) r.1.rtpSessions } d

/-- Watchdog body for one session (lines 783-802): on inactivity, mark it
closing and delete it from the session table. -/
def dgWatchdogTick (st : DgState) (ssrc : Nat) (now : Nat) : DgState :=
  match alookup ssrc st.rtpSessions with
  | none => st
  | some s =>
    if 8000 < now - s.last then
      { st with rtpSessions := adelete ssrc st.rtpSessions }
    else st

/-- The packet/register events the SSRC-binding claim quantifies over. -/
inductive DgEv
  | register (uuid exten caller callername : String) (dir : Option Dir) (now : Nat)
  | rtp (d : Dir) (msg : List Nat) (now : Nat)
deriving Repr, DecidableEq

def dgStep (cap : Nat) (st : DgState) : DgEv → DgState
  | DgEv.register uuid exten caller callername dir now =>
    dgRegister st uuid exten caller callername dir now
  | DgEv.rtp d msg now => onRtpMessage cap st d msg now

def runDg (cap : Nat) (evs : List DgEv) (st : DgState) : DgState :=
  evs.foldl (dgStep cap) st

theorem alookup_append_of_none {α β : Type} [DecidableEq α] (k : α) :
    ∀ (l m : List (α × β)), alookup k l = none → alookup k (l ++ m) = alookup k m := by
  intro l
  induction l with
  | nil => intro m _; rfl
  | cons p t ih =>
    intro m h
    obtain ⟨k', v⟩ := p
    by_cases hk : k' = k
    · rw [alookup, if_pos hk] at h
      cases h
    · rw [List.cons_append, alookup, if_neg hk]
      rw [alookup, if_neg hk] at h
      exact ih m h

theorem alookup_append_of_some {α β : Type} [DecidableEq α] (k : α) (v : β) :
    ∀ (l m : List (α × β)), alookup k l = some v → alookup k (l ++ m) = some v := by
  intro l
  induction l with
  | nil => intro m h; cases h
  | cons p t ih =>
    intro m h
    obtain ⟨k', v'⟩ := p
    by_cases hk : k' = k
    · rw [alookup, if_pos hk] at h
      rw [List.cons_append, alookup, if_pos hk]
      exact h
    · rw [alookup, if_neg hk] at h
      rw [List.cons_append, alookup, if_neg hk]
      exact ih m h

theorem alookup_aupdate_self {α β : Type} [DecidableEq α] (k : α) (f : β → β) :
    ∀ l : List (α × β), alookup k (aupdate k f l) = (alookup k l).map f := by
  intro l
  induction l with
  | nil => rfl
  | cons p t ih =>
    obtain ⟨k', v⟩ := p
    by_cases hk : k' = k
    · subst hk
      rw [aupdate, if_pos rfl, alookup, alookup, if_pos rfl, if_pos rfl]
      rfl
    · rw [aupdate, if_neg hk, alookup, alookup, if_neg hk, if_neg hk]
      exact ih

theorem alookup_aupdate_ne {α β : Type} [DecidableEq α] (k k' : α) (f : β → β)
    (hne : k ≠ k') : ∀ l : List (α × β), alookup k' (aupdate k f l) = alookup k' l := by
  intro l
  induction l with
  | nil => rfl
  | cons p t ih =>
    obtain ⟨k'', v⟩ := p
    by_cases hk : k'' = k
    · subst hk
      rw [aupdate, if_pos rfl, alookup, alookup, if_neg hne, if_neg hne]
    · rw [aupdate, if_neg hk, alookup, alookup]
      by_cases hk2 : k'' = k'
      · rw [if_pos hk2, if_pos hk2]
      · rw [if_neg hk2, if_neg hk2]
        exact ih

theorem popPending_fst (st : DgState) (d : Dir) (now : Nat) :
    (popPending st d now).1
      = ((pendingOf st d).filter (fun x => now - x.2 < PENDING_TTL_MS)).head? := rfl

theorem popPending_rtpSessions (st : DgState) (d : Dir) (now : Nat) :
    (popPending st d now).2.rtpSessions = st.rtpSessions := by
  cases d <;> rfl

theorem popPending_ctxByUuid (st : DgState) (d : Dir) (now : Nat) :
    (popPending st d now).2.ctxByUuid = st.ctxByUuid := by
  cases d <;> rfl

theorem resolveContext_snd (st : DgState) (d : Dir) (now : Nat) :
    (resolveContextForNewSSRC st d now).2 = (popPending st d now).2 := by
  unfold resolveContextForNewSSRC
  rcases hpp : popPending st d now with ⟨fst, snd⟩
  cases fst <;> rfl

theorem resolveContext_rtpSessions (st : DgState) (d : Dir) (now : Nat) :
    (resolveContextForNewSSRC st d now).2.rtpSessions = st.rtpSessions := by
  rw [resolveContext_snd, popPending_rtpSessions]

theorem resolveContext_ctxByUuid (st : DgState) (d : Dir) (now : Nat) :
    (resolveContextForNewSSRC st d now).2.ctxByUuid = st.ctxByUuid := by
  rw [resolveContext_snd, popPending_ctxByUuid]

theorem resolveContext_fst (st : DgState) (d : Dir) (now : Nat) :
    (resolveContextForNewSSRC st d now).1 =
      match ((pendingOf st d).filter (fun x => now - x.2 < PENDING_TTL_MS)).head? with
      | some p => (p.1, alookup p.1 st.ctxByUuid)
      | none => ("unknown", none) := by
  unfold resolveContextForNewSSRC
  cases hh : ((pendingOf st d).filter (fun x => now - x.2 < PENDING_TTL_MS)).head? with
  | some p =>
    have hpp : popPending st d now
        = (some p, withPending st d
            (((pendingOf st d).filter (fun x => now - x.2 < PENDING_TTL_MS)).tail)) := by
      unfold popPending
      exact congrArg (fun o => (o, withPending st d
        (((pendingOf st d).filter (fun x => now - x.2 < PENDING_TTL_MS)).tail))) hh
    rw [hpp]
    have hctx : (withPending st d
        (((pendingOf st d).filter (fun x => now - x.2 < PENDING_TTL_MS)).tail)).ctxByUuid
        = st.ctxByUuid := by
      cases d <;> rfl
    simp [hctx]
  | none =>
    have hpp : popPending st d now
        = (none, withPending st d
            (((pendingOf st d).filter (fun x => now - x.2 < PENDING_TTL_MS)).tail)) := by
      unfold popPending
      exact congrArg (fun o => (o, withPending st d
        (((pendingOf st d).filter (fun x => now - x.2 < PENDING_TTL_MS)).tail))) hh
    rw [hpp]

theorem rtpPayload_some_length (msg : List Nat) (p : List Nat)
    (h : rtpPayload msg = some p) : ¬ msg.length < 12 := by
  intro h12
  rw [rtpPayload_short msg h12] at h
  cases h

/-- `ctx?.exten || 'mix'` (deepgram-gw.js line 815). -/
def extenFallback : Option DgCtx → String
  | some c => if c.exten = "" then "mix" else c.exten
  | none => "mix"

/-- Binding-relevant session fields. -/
def sameBinding (s s' : DgSess) : Prop :=
  s'.uuid = s.uuid ∧ s'.dir = s.dir ∧ s'.exten = s.exten ∧ s'.room = s.room

theorem onRtp_preserves_binding (cap : Nat) (st : DgState) (d : Dir) (msg : List Nat)
    (now : Nat) (ssrc : Nat) (s : DgSess)
    (h : alookup ssrc st.rtpSessions = some s) :
    ∃ s', alookup ssrc (onRtpMessage cap st d msg now).rtpSessions = some s' ∧
      sameBinding s s' := by
  by_cases h12 : msg.length < 12
  · rw [onRtpMessage, if_pos h12]
    exact ⟨s, h, rfl, rfl, rfl, rfl⟩
  · rw [onRtpMessage, if_neg h12]
    cases hp : rtpPayload msg with
    | none => exact ⟨s, h, rfl, rfl, rfl, rfl⟩
    | some payload =>
      simp only []
      set ssrc' := readUInt32BE msg 8 with hssrc'
      cases hlk : alookup ssrc' st.rtpSessions with
      | some s0 =>
        have hens : dgEnsureSess cap st ssrc' d now = (st, true) := by
          rw [dgEnsureSess, hlk]
        rw [hens]
        simp only [Bool.true_eq_false, if_false, if_neg]
        by_cases heq : ssrc' = ssrc
        · subst heq
          rw [hlk] at h
          cases h
          refine ⟨{ s with pkts := s.pkts + 1, bytes := s.bytes + payload.length,
                           last := now }, ?_, rfl, rfl, rfl, rfl⟩
          have hbump : ∀ st' : DgState, (bumpRtpCounter st' d).rtpSessions = st'.rtpSessions := by
            intro st'; cases d <;> rfl
          rw [hbump]
          simp only []
          rw [alookup_aupdate_self, hlk]
          rfl
        · refine ⟨s, ?_, rfl, rfl, rfl, rfl⟩
          have hbump : ∀ st' : DgState, (bumpRtpCounter st' d).rtpSessions = st'.rtpSessions := by
            intro st'; cases d <;> rfl
          rw [hbump]
          simp only []
          rw [alookup_aupdate_ne ssrc' ssrc _ heq]
          exact h
      | none =>
        have hne : ssrc' ≠ ssrc := by
          intro he
          rw [he, h] at hlk
          cases hlk
        by_cases hcap : cap ≤ st.rtpSessions.length
        · have hens : dgEnsureSess cap st ssrc' d now = (st, false) := by
            rw [dgEnsureSess, hlk]
            simp [hcap]
          rw [hens]
          exact ⟨s, h, rfl, rfl, rfl, rfl⟩
        · have hbump : ∀ st' : DgState, (bumpRtpCounter st' d).rtpSessions = st'.rtpSessions := by
            intro st'; cases d <;> rfl
          rw [dgEnsureSess, hlk]
          simp only [if_neg hcap]
          simp only [Bool.true_eq_false, if_false, if_neg]
          refine ⟨s, ?_, rfl, rfl, rfl, rfl⟩
          rw [hbump]
          simp only []
          rw [alookup_aupdate_ne ssrc' ssrc _ hne]
          have hres := resolveContext_rtpSessions st d now
          apply alookup_append_of_some
          rw [hres]
          exact h

theorem dgRegister_rtpSessions (st : DgState) (uuid exten caller callername : String)
    (dir : Option Dir) (now : Nat) :
    (dgRegister st uuid exten caller callername dir now).rtpSessions = st.rtpSessions := by
  unfold dgRegister
  by_cases hu : uuid = ""
  · rw [if_pos hu]
  · rw [if_neg hu]
    cases dir with
    | none => cases alookup uuid st.ctxByUuid <;> rfl
    | some d => cases alookup uuid st.ctxByUuid <;> cases d <;> rfl

/-- Core adoption lemma: the first admitted packet of an unknown SSRC
creates a session bound per the pending-FIFO head (shared by the binding
and admission claims). -/
theorem onRtp_new_ssrc_adopts (cap : Nat) (st : DgState) (d : Dir) (now : Nat)
    (msg p : List Nat) (hp : rtpPayload msg = some p)
    (hlk : alookup (readUInt32BE msg 8) st.rtpSessions = none)
    (hlen : st.rtpSessions.length < cap) :
    ∃ s, alookup (readUInt32BE msg 8)
          (onRtpMessage cap st d msg now).rtpSessions = some s ∧
      s.dir = d ∧ s.room = s.exten ∧
      (match ((pendingOf st d).filter (fun x => now - x.2 < PENDING_TTL_MS)).head? with
       | some (u, _) =>
          s.uuid = u ∧ s.exten = extenFallback (alookup u st.ctxByUuid)
       | none => s.uuid = "unknown" ∧ s.exten = "mix") := by
  have h12 : ¬ msg.length < 12 := rtpPayload_some_length msg p hp
  rw [onRtpMessage, if_neg h12]
  simp only [hp]
  have hcap : ¬ cap ≤ st.rtpSessions.length := by omega
  rw [dgEnsureSess, hlk]
  simp only [if_neg hcap]
  simp only [Bool.true_eq_false, if_false, if_neg]
  have hbump : ∀ st' : DgState, (bumpRtpCounter st' d).rtpSessions = st'.rtpSessions := by
    intro st'; cases d <;> rfl
  rw [hbump]
  simp only []
  have hfst := resolveContext_fst st d now
  have hrs := resolveContext_rtpSessions st d now
  have hlknew : ∀ sess : DgSess,
      alookup (readUInt32BE msg 8)
        (aupdate (readUInt32BE msg 8)
          (fun s => { s with pkts := s.pkts + 1, bytes := s.bytes + p.length, last := now })
          ((resolveContextForNewSSRC st d now).2.rtpSessions ++ [(readUInt32BE msg 8, sess)]))
        = some { sess with pkts := sess.pkts + 1, bytes := sess.bytes + p.length,
                           last := now } := by
    intro sess
    rw [alookup_aupdate_self,
      alookup_append_of_none _ _ _ (by rw [hrs]; exact hlk)]
    rw [alookup]
    simp
  cases hh : ((pendingOf st d).filter (fun x => now - x.2 < PENDING_TTL_MS)).head? with
  | some q =>
    obtain ⟨u, t⟩ := q
    rw [hh] at hfst
    simp only [hfst]
    refine ⟨_, hlknew _, rfl, rfl, ?_⟩
    simp only [hh, extenFallback]
    constructor
    · trivial
    · cases alookup u st.ctxByUuid <;> trivial
  | none =>
    rw [hh] at hfst
    simp only [hfst]
    refine ⟨_, hlknew _, rfl, rfl, ?_⟩
    simp only [hh]
    exact ⟨trivial, trivial⟩

/-- **C5.** SSRC binding at the streaming gateway.
1. (TTL) `popPending` never returns an entry enqueued at `t` to a consumer
   at `now ≥ t + TTL`: every popped entry satisfies `now < t + 4000`, and
   expired entries are discarded from the stored FIFO before popping.
2. (Adoption) The first RTP packet of an unknown SSRC on direction `d`,
   admitted under the cap, creates a session that adopts the head of
   `d`'s TTL-filtered pending FIFO — CallId from the entry, extension
   from the context registered for that CallId (`|| 'mix'`) — or CallId
   `"unknown"` and extension/room `"mix"` when no valid entry exists.
3. (Stability) No later packet or register changes the `(SSRC, direction)`
   binding: under any further packet/register events the session keeps
   its uuid, direction, extension and room. -/
theorem C5_ssrc_binding (cap : Nat) :
    (∀ (st : DgState) (d : Dir) (now : Nat) (u : String) (t : Nat),
      (popPending st d now).1 = some (u, t) → now < t + PENDING_TTL_MS) ∧
    (∀ (st : DgState) (d : Dir) (now : Nat) (msg p : List Nat),
      rtpPayload msg = some p →
      alookup (readUInt32BE msg 8) st.rtpSessions = none →
      st.rtpSessions.length < cap →
      ∃ s, alookup (readUInt32BE msg 8)
            (onRtpMessage cap st d msg now).rtpSessions = some s ∧
        s.dir = d ∧ s.room = s.exten ∧
        (match ((pendingOf st d).filter (fun x => now - x.2 < PENDING_TTL_MS)).head? with
         | some (u, _) =>
            s.uuid = u ∧ s.exten = extenFallback (alookup u st.ctxByUuid)
         | none => s.uuid = "unknown" ∧ s.exten = "mix")) ∧
    (∀ (evs : List DgEv) (st : DgState) (ssrc : Nat) (s : DgSess),
      alookup ssrc st.rtpSessions = some s →
      ∃ s', alookup ssrc (runDg cap evs st).rtpSessions = some s' ∧ sameBinding s s') := by
  refine ⟨?_, ?_, ?_⟩
  · intro st d now u t hpop
    unfold popPending at hpop
    simp only [] at hpop
    have hmem : (u, t) ∈ (pendingOf st d).filter (fun x => now - x.2 < PENDING_TTL_MS) :=
      List.mem_of_mem_head? hpop
    have := (List.mem_filter.mp hmem).2
    simp only [decide_eq_true_eq] at this
    omega
  · intro st d now msg p hp hlk hlen
    exact onRtp_new_ssrc_adopts cap st d now msg p hp hlk hlen
  · intro evs
    induction evs with
    | nil =>
      intro st ssrc s h
      exact ⟨s, h, rfl, rfl, rfl, rfl⟩
    | cons e evs ih =>
      intro st ssrc s h
      cases e with
      | register uuid exten caller callername dir now =>
        have hreg : alookup ssrc (dgStep cap st
            (DgEv.register uuid exten caller callername dir now)).rtpSessions = some s := by
          show alookup ssrc (dgRegister st uuid exten caller callername dir now).rtpSessions
              = some s
          rw [dgRegister_rtpSessions]
          exact h
        obtain ⟨s', hs', hb⟩ := ih _ ssrc s hreg
        exact ⟨s', hs', hb⟩
      | rtp d msg now =>
        obtain ⟨s1, hs1, hb1⟩ := onRtp_preserves_binding cap st d msg now ssrc s h
        obtain ⟨s', hs', hb⟩ := ih _ ssrc s1 hs1
        refine ⟨s', hs', ?_, ?_, ?_, ?_⟩
        · rw [hb.1, hb1.1]
        · rw [hb.2.1, hb1.2.1]
        · rw [hb.2.2.1, hb1.2.2.1]
        · rw [hb.2.2.2, hb1.2.2.2]

/-- Witness for `C5_ssrc_binding` at cap 3: a register for call "A" on
the in-direction at `t = 0`, then the first packet of SSRC 9 at
`t = 100` adopts `uuid = "A"`, `exten = "200"`. -/
theorem C5_ssrc_binding_witness :
    rtpPayload [128, 0, 0, 1, 0, 0, 0, 0, 0, 0, 0, 9, 1, 2]
        = some [1, 2]
    ∧ (∃ s, alookup (readUInt32BE [128, 0, 0, 1, 0, 0, 0, 0, 0, 0, 0, 9, 1, 2] 8)
          (onRtpMessage 3
            (dgRegister initDgState "A" "200" "c" "cn" (some Dir.dIn) 0)
            Dir.dIn [128, 0, 0, 1, 0, 0, 0, 0, 0, 0, 0, 9, 1, 2] 100).rtpSessions = some s ∧
        s.dir = Dir.dIn ∧ s.room = s.exten ∧
        (match ((pendingOf (dgRegister initDgState "A" "200" "c" "cn" (some Dir.dIn) 0)
            Dir.dIn).filter (fun x => (100 : Nat) - x.2 < PENDING_TTL_MS)).head? with
         | some (u, _) =>
            s.uuid = u ∧ s.exten = extenFallback
              (alookup u (dgRegister initDgState "A" "200" "c" "cn" (some Dir.dIn) 0).ctxByUuid)
         | none => s.uuid = "unknown" ∧ s.exten = "mix")) :=
  ⟨by decide,
    (C5_ssrc_binding 3).2.1 (dgRegister initDgState "A" "200" "c" "cn" (some Dir.dIn) 0)
      Dir.dIn 100 [128, 0, 0, 1, 0, 0, 0, 0, 0, 0, 0, 9, 1, 2] [1, 2]
      (by decide) (by decide) (by decide)⟩

/-! ### C7: reconnect backoff (`nextBackoffMs`, deepgram-gw.js lines
585-592, and the `ws.on('close')` handler, lines 669-685) -/

def RECONNECT_BASE_MS : Nat := 500

def RECONNECT_MAX_MS : Nat := 8000

/-- `nextBackoffMs(attempt)` with the random jitter made explicit:
`Math.min(RECONNECT_MAX_MS, RECONNECT_BASE_MS * 2 ** attempt) + jitter`
where `jitter = Math.floor(Math.random() * 200) ∈ [0, 199]`. -/
def nextBackoffMs (attempt jitter : Nat) : Nat :=
  min RECONNECT_MAX_MS (RECONNECT_BASE_MS * 2 ^ attempt) + jitter

/-- The `ws.on('close')` handler (lines 669-678): no-op while tearing down
deliberately (`s.closing`); otherwise `const attempt = s.reconnects++` —
the wait uses the *old* counter and the counter increments by one — and a
reconnect is scheduled after `nextBackoffMs(attempt)`. -/
def onWsClose (s : DgSess) (jitter : Nat) : DgSess × Option Nat :=
  if s.closing then (s, none)
  else ({ s with reconnects := s.reconnects + 1 },
    some (nextBackoffMs s.reconnects jitter))

/-- The scheduled `setTimeout` body (lines 679-684): the reconnect is
performed only if the session still exists in the session table
(`if (!rtpSessions.has(s.ssrc)) return`). -/
def fireReconnect (st : DgState) (ssrc : Nat) : Bool :=
  (alookup ssrc st.rtpSessions).isSome

/-- Counterexample to **C7** as stated: at attempt `k = 4` with jitter
199 ms the wait is `min(8000, 500·2⁴) + 199 = 8199 ms > 8000 ms`: the cap
is applied to the exponential term *before* the jitter is added, so the
whole wait is not capped at the configured 8 s maximum (and for `k ≥ 5`
the claimed lower bound `base·2^k ≤ wait` fails as well: 8199 < 16000). -/
theorem C7_counterexample :
    199 < 200 ∧ nextBackoffMs 4 199 = 8199 ∧ 8000 < nextBackoffMs 4 199
      ∧ nextBackoffMs 5 199 < 500 * 2 ^ 5 := by
  refine ⟨by norm_num, ?_, ?_, ?_⟩ <;> simp [nextBackoffMs, RECONNECT_BASE_MS, RECONNECT_MAX_MS]

/-- **C7 (amended).** The wait before reconnect attempt `k` satisfies
`min(8000, 500·2^k) ≤ wait < min(8000, 500·2^k) + 200` (so
`wait ≤ 8199`; for `k ≤ 3`, where the cap does not bind, the original
`500·2^k ≤ wait < 500·2^k + 200 ≤ 8200` bounds hold); the attempt counter
increments by exactly one per close (and is untouched on a deliberate
teardown, which schedules no reconnect); and the scheduled reconnect is
performed only if the session still exists in the session table. -/
theorem C7_backoff (k jitter : Nat) (hj : jitter < 200) :
    (min 8000 (500 * 2 ^ k) ≤ nextBackoffMs k jitter ∧
      nextBackoffMs k jitter < min 8000 (500 * 2 ^ k) + 200 ∧
      nextBackoffMs k jitter ≤ 8199 ∧
      (k ≤ 3 → 500 * 2 ^ k ≤ nextBackoffMs k jitter ∧
        nextBackoffMs k jitter < 500 * 2 ^ k + 200)) ∧
    (∀ s : DgSess, s.closing = false →
      (onWsClose s jitter).1.reconnects = s.reconnects + 1 ∧
      (onWsClose s jitter).2 = some (nextBackoffMs s.reconnects jitter)) ∧
    (∀ s : DgSess, s.closing = true → onWsClose s jitter = (s, none)) ∧
    (∀ (st : DgState) (ssrc : Nat),
      fireReconnect st ssrc = true ↔ (alookup ssrc st.rtpSessions).isSome) := by
  have hmin : min 8000 (500 * 2 ^ k) ≤ 8000 := Nat.min_le_left _ _
  refine ⟨⟨?_, ?_, ?_, ?_⟩, ?_, ?_, ?_⟩
  · simp [nextBackoffMs, RECONNECT_BASE_MS, RECONNECT_MAX_MS]
  · simp only [nextBackoffMs, RECONNECT_BASE_MS, RECONNECT_MAX_MS]
    omega
  · simp only [nextBackoffMs, RECONNECT_BASE_MS, RECONNECT_MAX_MS]
    omega
  · intro hk3
    have hpow : 2 ^ k ≤ 2 ^ 3 := Nat.pow_le_pow_right (by norm_num) hk3
    have hsm : 500 * 2 ^ k ≤ 4000 := by
      calc 500 * 2 ^ k ≤ 500 * 2 ^ 3 := Nat.mul_le_mul_left 500 hpow
        _ = 4000 := by norm_num
    have hmineq : min 8000 (500 * 2 ^ k) = 500 * 2 ^ k :=
      Nat.min_eq_right (by omega)
    simp only [nextBackoffMs, RECONNECT_BASE_MS, RECONNECT_MAX_MS, hmineq]
    omega
  · intro s hc
    rw [onWsClose, if_neg (by simp [hc])]
    exact ⟨rfl, rfl⟩
  · intro s hc
    rw [onWsClose, if_pos (by simp [hc])]
  · intro st ssrc
    exact Iff.rfl

/-- Witness for `C7_backoff` at `k = 2`, jitter 100: the wait is 2100 ms,
inside `[2000, 2200)`. -/
theorem C7_backoff_witness :
    100 < 200 ∧ 500 * 2 ^ 2 ≤ nextBackoffMs 2 100 ∧
      nextBackoffMs 2 100 < 500 * 2 ^ 2 + 200 :=
  ⟨by norm_num, ((C7_backoff 2 100 (by norm_num)).1.2.2.2 (by norm_num)).1,
    ((C7_backoff 2 100 (by norm_num)).1.2.2.2 (by norm_num)).2⟩

/-! ### C8: session cap (`DG_MAX_SESSIONS`, deepgram-gw.js lines 808-811) -/

/-- A concrete state with one live session under cap 1: the first packet
of SSRC `0x00000009` processed from the empty state. -/
def dgCapSt : DgState :=
  onRtpMessage 1 initDgState Dir.dIn [128, 0, 0, 1, 0, 0, 0, 0, 0, 0, 0, 9, 1, 2] 0

/-- Counterexample to **C8** as stated: with the cap `C = 1` reached, the
first packet of a new distinct SSRC (`0x0000000a`) on the out-direction
port creates no session — but the state is *entirely unchanged*: no drop
counter is incremented (the dual-port gateway has no such counter; even
`dg_rtp_packets_total` is only incremented after `ensureSess` succeeds,
so the dropped packet is not counted anywhere). -/
theorem C8_counterexample :
    onRtpMessage 1 dgCapSt Dir.dOut [128, 0, 0, 1, 0, 0, 0, 0, 0, 0, 0, 10, 1, 2] 50
      = dgCapSt
    ∧ dgCapSt.rtpSessions.length = 1
    ∧ (onRtpMessage 1 dgCapSt Dir.dOut [128, 0, 0, 1, 0, 0, 0, 0, 0, 0, 0, 10, 1, 2] 50).rtpPacketsOut
      = dgCapSt.rtpPacketsOut := by
  refine ⟨?_, by decide, ?_⟩ <;> decide

/-- **C8 (amended).** With the session cap set to `C`: while `C` sessions
are live, the first RTP packet of any additional distinct SSRC on either
direction port creates no session and is dropped silently — the gateway
state (including every counter it maintains) is left entirely unchanged,
with *no* drop counter incremented; once an existing session terminates
(the inactivity watchdog deletes it), the table shrinks below the cap and
new SSRCs are admitted again. -/
theorem C8_admission_cap (cap : Nat) :
    (∀ (st : DgState) (d : Dir) (msg p : List Nat) (now : Nat),
      rtpPayload msg = some p →
      alookup (readUInt32BE msg 8) st.rtpSessions = none →
      cap ≤ st.rtpSessions.length →
      onRtpMessage cap st d msg now = st) ∧
    (∀ (st : DgState) (d : Dir) (msg p : List Nat) (now : Nat),
      rtpPayload msg = some p →
      alookup (readUInt32BE msg 8) st.rtpSessions = none →
      st.rtpSessions.length < cap →
      ∃ s, alookup (readUInt32BE msg 8)
        (onRtpMessage cap st d msg now).rtpSessions = some s) ∧
    (∀ (st : DgState) (ssrc now : Nat) (s : DgSess),
      alookup ssrc st.rtpSessions = some s → 8000 < now - s.last →
      (dgWatchdogTick st ssrc now).rtpSessions.length + 1 = st.rtpSessions.length) := by
  refine ⟨?_, ?_, ?_⟩
  · intro st d msg p now hp hlk hcap
    have h12 : ¬ msg.length < 12 := rtpPayload_some_length msg p hp
    rw [onRtpMessage, if_neg h12]
    simp only [hp]
    rw [dgEnsureSess, hlk]
    simp [hcap]
  · intro st d msg p now hp hlk hlen
    obtain ⟨s, hs, _⟩ := onRtp_new_ssrc_adopts cap st d now msg p hp hlk hlen
    exact ⟨s, hs⟩
  · intro st ssrc now s hlk hinact
    rw [dgWatchdogTick, hlk]
    simp only [if_pos hinact]
    have : ∀ l : List (Nat × DgSess), alookup ssrc l = some s →
        (adelete ssrc l).length + 1 = l.length := by
      intro l
      induction l with
      | nil => intro h; cases h
      | cons q t ih =>
        intro h
        obtain ⟨k', v⟩ := q
        by_cases hk : k' = ssrc
        · rw [adelete, if_pos hk]
          simp
        · rw [alookup, if_neg hk] at h
          rw [adelete, if_neg hk]
          simp only [List.length_cons]
          rw [ih h]
    exact this st.rtpSessions hlk

/-- Witness for `C8_admission_cap` at the concrete capped state: the new
SSRC's packet leaves the state unchanged. -/
theorem C8_admission_cap_witness :
    rtpPayload [128, 0, 0, 1, 0, 0, 0, 0, 0, 0, 0, 10, 1, 2] = some [1, 2]
    ∧ alookup (readUInt32BE [128, 0, 0, 1, 0, 0, 0, 0, 0, 0, 0, 10, 1, 2] 8)
        dgCapSt.rtpSessions = none
    ∧ 1 ≤ dgCapSt.rtpSessions.length
    ∧ onRtpMessage 1 dgCapSt Dir.dOut [128, 0, 0, 1, 0, 0, 0, 0, 0, 0, 0, 10, 1, 2] 50
        = dgCapSt :=
  ⟨by decide, by decide, by decide,
    (C8_admission_cap 1).1 dgCapSt Dir.dOut [128, 0, 0, 1, 0, 0, 0, 0, 0, 0, 0, 10, 1, 2]
      [1, 2] 50 (by decide) (by decide) (by decide)⟩

/-! ### C9: generative-assistant cycle (`runGenAssistantCycle`,
deepgram-gw.js lines 958-1043, and `genAssEnsureConv`, lines 464-472)

`convByUuid` maps CallIds to conversation *objects*; `/unregister` and
the watchdog delete map entries, but a cycle iteration holds a direct
reference `conv` across the awaited POST.  We model the heap explicitly:
`objs` is the list of all conversation objects ever allocated (addresses
are indices), `convByUuid` maps uuid → address.  The awaited
`postJson` is the interleaving point at which the conversation can be
removed from the map. -/

structure GenItem where
  ts : Nat
  speaker : String
  text : String
deriving Repr, DecidableEq

structure Conv where
  items : List GenItem
  totalChars : Nat
  lastActivity : Nat
  lastSentItems : Nat
deriving Repr, DecidableEq

structure GenState where
  objs : List Conv
  convByUuid : List (String × Nat)
deriving Repr, DecidableEq

def objsUpdate (addr : Nat) (f : Conv → Conv) (l : List Conv) : List Conv :=
  match l.get? addr with
  | some c => l.set addr (f c)
  | none => l

/-- `genAssEnsureConv` (lines 464-472): return the existing conversation
for `uuid`, or allocate a fresh one and put it in the map. -/
def genAssEnsureConv (st : GenState) (uuid : String) (now : Nat) : GenState × Nat :=
  match alookup uuid st.convByUuid with
  | some addr => (st, addr)
  | none =>
    ({ objs := st.objs ++ [({ items := [], totalChars := 0, lastActivity := now,
                              lastSentItems := 0 } : Conv)],
       convByUuid := aset uuid st.objs.length st.convByUuid }, st.objs.length)

/-- Outcome of the awaited `postJson` to the assistant engine. -/
inductive AssistantResp
  | noBody
  | otherText
  | agentText (text : String)
deriving Repr, DecidableEq

/-- One iteration of `runGenAssistantCycle`'s `for` loop for conversation
`uuid` (lines 962-1042): gate on non-empty items, the minimum character
threshold, and `lastSentItems && items.length === lastSentItems`; then
POST (during which `/unregister` may delete the map entry —
`removeDuringPost`); on an agent-visible reply re-`ensureConv` (which
re-creates the map entry if it was removed) and append the assistant
item; `finally`, set `conv.lastSentItems = conv.items.length` on the
*originally captured object* `addr`, whether or not it is still in the
map. -/
def runCycleOne (st : GenState) (uuid : String) (minChars : Nat)
    (removeDuringPost : Bool) (resp : AssistantResp) (now : Nat) : GenState :=
  match alookup uuid st.convByUuid with
  | none => st
  | some addr =>
    match st.objs.get? addr with
    | none => st
    | some conv =>
      if conv.items.length = 0 then st
      else if conv.totalChars < minChars then st
      else if conv.lastSentItems ≠ 0 ∧ conv.items.length = conv.lastSentItems then st
      else
        let st1 :=
          if removeDuringPost then { st with convByUuid := adelete uuid st.convByUuid }
          else st
        let st2 :=
          match resp with
          | AssistantResp.noBody => st1
          | AssistantResp.otherText => st1
          | AssistantResp.agentText text =>
            let e := genAssEnsureConv st1 uuid now
            { e.1 with objs := objsUpdate e.2 (fun c =>
                { c with items := c.items ++ [({ ts := now, speaker := "assistant",
                                                 text := text } : GenItem)],
                         lastActivity := now }) e.1.objs }
        { st2 with objs := objsUpdate addr (fun c =>
            { c with lastSentItems := c.items.length }) st2.objs }

/-- **C9 is a code bug.**  Failing input: one tracked conversation for
CallId "A" (one final item, `totalChars = 120 ≥ GEN_ASS_MIN_CHARS`,
nothing sent yet), and an `/unregister` for "A" that lands while the
assistant POST is in flight.  The cycle's `finally` block then sets
`lastSentItems` on the conversation object even though "A" was removed
from `convByUuid` between the gate and the update — the map no longer
contains "A" (`alookup` = none) yet the dead object's counter was
updated from 0 to 1.  The claim (and §9(b) of the specification) require
the counter update to happen only when the conversation still exists. -/
theorem C9_lastSentItems_updated_after_removal :
    alookup "A" (runCycleOne
        { objs := [{ items := [{ ts := 5, speaker := "user", text := "x" }],
                     totalChars := 120, lastActivity := 5, lastSentItems := 0 }],
          convByUuid := [("A", 0)] }
        "A" 120 true AssistantResp.noBody 10).convByUuid = none
    ∧ ((runCycleOne
        { objs := [{ items := [{ ts := 5, speaker := "user", text := "x" }],
                     totalChars := 120, lastActivity := 5, lastSentItems := 0 }],
          convByUuid := [("A", 0)] }
        "A" 120 true AssistantResp.noBody 10).objs.get? 0).map Conv.lastSentItems
      = some 1 := by
  constructor <;> rfl

/-! ## CTL: `server/ari/ari-client.js`

### C6: event-stream URL derivation (`buildAriWsUrl`, lines 27-49, used
by `AriAdapter.start`, lines 111-141)

`buildAriWsUrl` switches the scheme (`https:`→`wss:`, else `ws:`), strips
trailing slashes off the base pathname, and appends the literal
`/ari/events` plus the `app`/`api_key`/`subscribeAll` query.  We model
the pathname as its slash-separated segments (a trailing slash shows up
as a trailing empty segment). -/

inductive UrlScheme
  | http
  | https
deriving Repr, DecidableEq

inductive WsScheme
  | ws
  | wss
deriving Repr, DecidableEq

structure HttpBase where
  scheme : UrlScheme
  host : String
  pathSegs : List String
deriving Repr, DecidableEq

/-- `u.pathname.replace(/\/+$/, '')` on the segment representation. -/
def stripTrailingEmpty (l : List String) : List String :=
  (l.reverse.dropWhile (fun s => s = "")).reverse

structure AriWsUrl where
  scheme : WsScheme
  host : String
  pathSegs : List String
  app : String
  apiKeyUser : String
  apiKeyPass : String
  subscribeAll : Bool
deriving Repr, DecidableEq

def buildAriWsUrl (base : HttpBase) (appName user pass : String) : AriWsUrl :=
  { scheme :=
      match base.scheme with
      | UrlScheme.https => WsScheme.wss
      | UrlScheme.http => WsScheme.ws,
    host := base.host,
    pathSegs := stripTrailingEmpty base.pathSegs ++ ["ari", "events"],
    app := appName,
    apiKeyUser := user,
    apiKeyPass := pass,
    subscribeAll := true }

/-- The older endpoint layout: the stream path ends in `/ari/events`. -/
def usesAriEventsLayout (u : AriWsUrl) : Prop :=
  ∃ pre, u.pathSegs = pre ++ ["ari", "events"]

/-- The newer endpoint layout: the stream path ends in `/ws`. -/
def usesWsLayout (u : AriWsUrl) : Prop :=
  ∃ pre, u.pathSegs = pre ++ ["ws"]

theorem buildAriWsUrl_never_ws (base : HttpBase) (appName user pass : String) :
    ¬ usesWsLayout (buildAriWsUrl base appName user pass) := by
  rintro ⟨pre, hpre⟩
  have h1 : (buildAriWsUrl base appName user pass).pathSegs.getLast? = some "events" := by
    show (stripTrailingEmpty base.pathSegs ++ ["ari", "events"]).getLast? = some "events"
    simp [List.getLast?_append]
  rw [hpre] at h1
  rw [show (pre ++ ["ws"]).getLast? = some "ws" from by simp [List.getLast?_append]] at h1
  exact absurd h1 (by decide)

/-- Counterexample to **C6** as stated: the adapter does *not* work
against both endpoint layouts — there is no base URL (no scheme, host or
path prefix whatsoever) for which it selects the newer `/ws` endpoint;
`buildAriWsUrl` unconditionally appends `/ari/events`, with no
auto-selection logic and no configuration hook. -/
theorem C6_counterexample :
    ¬ ∃ (base : HttpBase) (appName user pass : String),
        usesWsLayout (buildAriWsUrl base appName user pass) := by
  rintro ⟨base, a, u, p, huses⟩
  exact buildAriWsUrl_never_ws base a u p huses

/-- **C6 (amended).** The event-stream URL is derived from the REST base
by switching the scheme to its streaming counterpart (http→ws,
https→wss), preserving the host and any path prefix, and always
appending the older `/ari/events` endpoint; the newer `/ws` layout is
never produced.  The query carries `app`, `api_key=user:pass` and
`subscribeAll=true`. -/
theorem C6_ws_url_derivation (base : HttpBase) (appName user pass : String) :
    ((buildAriWsUrl base appName user pass).scheme
        = match base.scheme with
          | UrlScheme.https => WsScheme.wss
          | UrlScheme.http => WsScheme.ws)
    ∧ (buildAriWsUrl base appName user pass).host = base.host
    ∧ ((buildAriWsUrl base appName user pass).pathSegs.take
        (stripTrailingEmpty base.pathSegs).length = stripTrailingEmpty base.pathSegs)
    ∧ usesAriEventsLayout (buildAriWsUrl base appName user pass)
    ∧ ¬ usesWsLayout (buildAriWsUrl base appName user pass)
    ∧ (buildAriWsUrl base appName user pass).app = appName
    ∧ (buildAriWsUrl base appName user pass).subscribeAll = true := by
  refine ⟨rfl, rfl, ?_, ⟨stripTrailingEmpty base.pathSegs, rfl⟩,
    buildAriWsUrl_never_ws base appName user pass, rfl, rfl⟩
  show (stripTrailingEmpty base.pathSegs ++ ["ari", "events"]).take
    (stripTrailingEmpty base.pathSegs).length = stripTrailingEmpty base.pathSegs
  rw [List.take_left]

/-- The base URL `http://host:8088/asterisk` of the adapter's doc comment. -/
def c6Base : HttpBase :=
  { scheme := UrlScheme.http, host := "host:8088", pathSegs := ["asterisk"] }

/-- Witness for `C6_ws_url_derivation` at the base
`http://host:8088/asterisk`: the stream URL is
`ws://host:8088/asterisk/ari/events`, never the `/ws` layout. -/
theorem C6_ws_url_derivation_witness :
    (buildAriWsUrl c6Base "tap-app" "u" "p").scheme = WsScheme.ws
    ∧ usesAriEventsLayout (buildAriWsUrl c6Base "tap-app" "u" "p")
    ∧ ¬ usesWsLayout (buildAriWsUrl c6Base "tap-app" "u" "p") :=
  ⟨(C6_ws_url_derivation c6Base "tap-app" "u" "p").1,
   (C6_ws_url_derivation c6Base "tap-app" "u" "p").2.2.2.1,
   (C6_ws_url_derivation c6Base "tap-app" "u" "p").2.2.2.2.1⟩

/-! ## TAP: `/start_tap` gw-parameter handling

### C10: `normalizeGw` (tap-service.js lines 205-218) and the
`/start_tap` handler (lines 768-859) -/

/-- JS `String.prototype.trim` whitespace (the characters relevant here). -/
def jsWs (c : Char) : Bool :=
  c = ' ' ∨ c = '\t' ∨ c = '\n' ∨ c = '\r'

/-- `x.trim()`, written structurally over the character data so that the
kernel can evaluate it. -/
def jsTrim (s : String) : String :=
  String.mk (((s.data.dropWhile jsWs).reverse.dropWhile jsWs).reverse)

/-- `'A'..'Z'` to lowercase (`toLowerCase()` on the ASCII names used for
the `gw` values). -/
def jsToLower (s : String) : String :=
  String.mk (s.data.map (fun c =>
    if 'A' ≤ c ∧ c ≤ 'Z' then Char.ofNat (c.toNat + 32) else c))

def splitCommaGo : List Char → List Char → List String
  | [], acc => [String.mk acc.reverse]
  | c :: rest, acc =>
    if c = ',' then String.mk acc.reverse :: splitCommaGo rest []
    else splitCommaGo rest (c :: acc)

/-- `s.split(',')`. -/
def jsSplitComma (s : String) : List String :=
  splitCommaGo s.data []

/-- The first non-empty trimmed entry of the comma-separated list, with
fallback `'mti'` (`s.split(',').map(x => x.trim()).filter(Boolean)[0] ||
'mti'`). -/
def firstGwEntry (s : String) : String :=
  (((jsSplitComma (jsTrim s)).map jsTrim).filter (fun x => x ≠ "")).headD "mti"

/-- `normalizeGw` (tap-service.js lines 205-218): absent or empty
(`!raw`) → `'mti'`; otherwise take the first entry, lowercase it, and
fall back to `'mti'` unless it is a known gateway name. -/
def normalizeGw (raw : Option String) : String :=
  match raw with
  | none => "mti"
  | some r =>
    if r = "" then "mti"
    else
      if jsToLower (firstGwEntry r) = "mti" ∨ jsToLower (firstGwEntry r) = "deepgram"
      then jsToLower (firstGwEntry r) else "mti"

inductive SnoopResult
  | ok
  | fail
deriving Repr, DecidableEq

/-- The `/start_tap` handler's observable outcome (status code and chosen
backend): `gw` is normalized up front (never a rejection), 400 only when
`chan` or `uuid` is missing or empty (JS falsiness), 200 on snoop
success, 500 when snoop creation itself throws. -/
def startTap (chan uuid gw : Option String) (snoop : SnoopResult) : Nat × String :=
  if chan.getD "" = "" ∨ uuid.getD "" = "" then (400, normalizeGw gw)
  else
    match snoop with
    | SnoopResult.ok => (200, normalizeGw gw)
    | SnoopResult.fail => (500, normalizeGw gw)

/-- **C10.** For every `/start_tap` request carrying valid `chan` and
`uuid`, the orchestrator never rejects the request because of the `gw`
parameter: the status is 200 unless snoop creation itself fails (then
500), never 400, and is independent of `gw`; `normalizeGw` is total into
`{"mti", "deepgram"}`, an absent or empty or unrecognized value is
silently treated as the framed (`"mti"`) backend, and a comma-separated
list is decided by its first (non-empty, trimmed, lowercased) entry. -/
theorem C10_gw_never_rejected (chan uuid gw : Option String) (snoop : SnoopResult)
    (hc : chan.getD "" ≠ "") (hu : uuid.getD "" ≠ "") :
    ((startTap chan uuid gw snoop).1
        = match snoop with
          | SnoopResult.ok => 200
          | SnoopResult.fail => 500)
    ∧ (startTap chan uuid gw snoop).1 ≠ 400
    ∧ (∀ gw' : Option String, (startTap chan uuid gw snoop).1
        = (startTap chan uuid gw' snoop).1)
    ∧ (normalizeGw gw = "mti" ∨ normalizeGw gw = "deepgram")
    ∧ normalizeGw none = "mti"
    ∧ normalizeGw (some "") = "mti"
    ∧ (∀ r : String, r ≠ "" →
        normalizeGw (some r)
          = if jsToLower (firstGwEntry r) = "mti" ∨ jsToLower (firstGwEntry r) = "deepgram"
            then jsToLower (firstGwEntry r) else "mti")
    ∧ normalizeGw (some "deepgram,mti") = "deepgram"
    ∧ normalizeGw (some "bogus") = "mti" := by
  have hst : ∀ g : Option String, startTap chan uuid g snoop
      = match snoop with
        | SnoopResult.ok => (200, normalizeGw g)
        | SnoopResult.fail => (500, normalizeGw g) := by
    intro g
    rw [startTap.eq_def, if_neg (by simp [hc, hu])]
  have hrange : ∀ g : Option String, normalizeGw g = "mti" ∨ normalizeGw g = "deepgram" := by
    intro g
    match g with
    | none => exact Or.inl rfl
    | some r =>
      rw [normalizeGw]
      by_cases hr : r = ""
      · rw [if_pos hr]
        exact Or.inl rfl
      · rw [if_neg hr]
        by_cases hg : jsToLower (firstGwEntry r) = "mti"
            ∨ jsToLower (firstGwEntry r) = "deepgram"
        · rw [if_pos hg]
          exact hg
        · rw [if_neg hg]
          exact Or.inl rfl
  refine ⟨?_, ?_, ?_, hrange gw, rfl, rfl, ?_, by decide, by decide⟩
  · rw [hst gw]; cases snoop <;> rfl
  · rw [hst gw]; cases snoop <;> simp
  · intro gw'
    rw [hst gw, hst gw']
    cases snoop <;> rfl
  · intro r hr
    rw [normalizeGw, if_neg hr]

/-- Witness for `C10_gw_never_rejected`: an unrecognized, comma-separated
`gw` list still yields 200 with the `mti` fallback. -/
theorem C10_gw_never_rejected_witness :
    (some "SIP/100" : Option String).getD "" ≠ ""
    ∧ (some "A1" : Option String).getD "" ≠ ""
    ∧ (startTap (some "SIP/100") (some "A1") (some "foo,bar") SnoopResult.ok).1 = 200 :=
  ⟨by decide, by decide,
    (C10_gw_never_rejected (some "SIP/100") (some "A1") (some "foo,bar") SnoopResult.ok
      (by decide) (by decide)).1⟩

end AsrPoc
